import Mathlib

/-!
# redis-backup-sidecar: a shallow embedding of `main.go`

The sidecar talks to three outside parties: the Redis connection, the local
file system and the S3 uploader.  Every call to one of them is modelled by

* an *oracle* value that says how the outside world answers the call, and
* an *event* appended to the list of calls the code has made, in order.

Go strings are byte sequences; they are modelled as lists of code units
(`GoString`), one list element per byte.  `time.Duration` and `int` are
64-bit signed integers, modelled as `Int` with explicit wrap-around.
-/

namespace RedisBackupSidecar

/-! ## Strings (`strings.Index`, `strings.Contains`, `strings.Count`, `strings.Split`) -/

/-- A Go string: a sequence of code units. -/
abbrev GoString := List Char

/-- Go `strings.Index(s, substr)`: the index of the first occurrence of
`substr` in `s`; Go's `-1` is `none`. -/
def Index : GoString → GoString → Option Nat
  | [], sub => if sub.isPrefixOf [] then some 0 else none
  | c :: t, sub =>
    if sub.isPrefixOf (c :: t) then some 0 else (Index t sub).map (· + 1)

/-- Go `strings.Contains(s, substr)`, which is `Index(s, substr) >= 0`. -/
def Contains (s sub : GoString) : Bool := (Index s sub).isSome

/-- The loop of Go `strings.Count(s, substr)` for a non-empty `substr`:
count the non-overlapping occurrences, restarting after each one.  The
fuel bounds the number of rounds; `s.length` rounds always suffice. -/
def countLoop (sub : GoString) : Nat → GoString → Nat
  | 0, _ => 0
  | fuel + 1, s =>
    match Index s sub with
    | none => 0
    | some i => countLoop sub fuel (s.drop (i + sub.length)) + 1

/-- Go `strings.Count(s, substr)` for a non-empty `substr`. -/
def Count (s sub : GoString) : Nat := countLoop sub s.length s

/-- The loop of Go `genSplit(s, sep, 0, n)` for a non-empty `sep`: at most
`n` times, cut `s` at the first occurrence of `sep`; what is left is the
last piece. -/
def genSplit (sep : GoString) : Nat → GoString → List GoString
  | 0, s => [s]
  | n + 1, s =>
    match Index s sep with
    | none => [s]
    | some m => s.take m :: genSplit sep n (s.drop (m + sep.length))

/-- Go `strings.Split(s, sep)` for a non-empty `sep`: `genSplit` with
`n = Count(s, sep) + 1` pieces, capped at `len(s) + 1`, that is at most
`n - 1` cuts. -/
def Split (s sep : GoString) : List GoString :=
  genSplit sep (min (Count s sep + 1) (s.length + 1) - 1) s

/-! ## Leadership detection -/

/-- An `error` value, identified with its message (`err.Error()`). -/
abbrev Err := GoString

/-- The marker looked for in the `INFO` report. -/
def roleMaster : GoString := "role:master".toList

/-- The body of the `for _, line := range strings.Split(v, "\n")` loop of
`isMaster`: `yes` becomes true at the first line that contains the marker. -/
def scanLines : List GoString → Bool
  | [] => false
  | line :: rest => if Contains line roleMaster then true else scanLines rest

/-- Go `isMaster`, given the result of `connection.Info(ctx).Result()`.
The pair is the named results `(yes, err)`; a nil error is `none`. -/
def isMaster (info : Except Err GoString) : Bool × Option Err :=
  match info with
  | .error err => (false, some err)
  | .ok v => (scanLines (Split v "\n".toList), none)

/-- The reference definition of leadership detection in the words of the
specification: an error of the query is returned as such, otherwise the
answer is whether the report as a whole has the marker as a substring. -/
def isMasterRef (info : Except Err GoString) : Bool × Option Err :=
  match info with
  | .error e => (false, some e)
  | .ok v => (decide (roleMaster <:+: v), none)

/-! ## Machine integers, configuration, events -/

/-- Wrap an integer into the range of a 64-bit signed integer: Go `int64`
(`time.Duration`), and Go `int` on a 64-bit platform. -/
def wrap64 (x : Int) : Int := (x + 2 ^ 63) % 2 ^ 64 - 2 ^ 63

/-- Go `time.Second`: a `time.Duration` counts nanoseconds. -/
def Second : Int := 1000000000

/-- Go `_opts`, the configuration.  `RetryWaitTimeInSeconds` is an `int`,
`frequency` a `time.Duration` (nanoseconds). -/
structure _opts where
  DatabaseString : GoString
  DatabasePassword : GoString
  DatabaseUsername : GoString
  Frequency : GoString
  PublicKey : GoString
  AWSRegion : GoString
  AWSBucket : GoString
  BucketDirectory : GoString
  RetryWaitTimeInSeconds : Int
  frequency : Int

/-- The calls the orchestration code makes to the outside, one event per call. -/
inductive Event where
  /-- The call `conn.ClientSetName` in `connect`: the connection is opened. -/
  | clientSetName
  /-- The deferred `conn.Close()` of `startLoop`. -/
  | connClose
  /-- The call `connection.Info(ctx)` in `isMaster`. -/
  | info
  /-- The call `conn.LastSave(ctx)`. -/
  | lastSave
  /-- The call `conn.BgSave(ctx)`. -/
  | bgSave
  /-- The call `conn.ConfigGet(ctx, param)`. -/
  | configGet (param : GoString)
  /-- The call `time.Sleep(d)`, `d` in nanoseconds. -/
  | sleep (d : Int)
  /-- A call `encrypt(key, file)`. -/
  | encrypt (key file : GoString)
  /-- A call `uploadToS3(file, opts)`. -/
  | uploadToS3 (file : GoString)
  /-- The call `os.Remove(file)`. -/
  | remove (file : GoString)
  /-- A line written by `log.Println`, `log.Printf` or `log.Fatalf`. -/
  | log (msg : GoString)
  deriving DecidableEq, Repr

namespace Event

def isLastSave : Event → Bool
  | lastSave => true
  | _ => false

def isBgSave : Event → Bool
  | bgSave => true
  | _ => false

def isConfigGet : Event → Bool
  | configGet _ => true
  | _ => false

def isSleep : Event → Bool
  | sleep _ => true
  | _ => false

def isEncrypt : Event → Bool
  | encrypt _ _ => true
  | _ => false

def isUpload : Event → Bool
  | uploadToS3 _ => true
  | _ => false

def isRemove : Event → Bool
  | remove _ => true
  | _ => false

def isConnect : Event → Bool
  | clientSetName => true
  | _ => false

/-- The duration of a `time.Sleep` event. -/
def sleepDuration : Event → Option Int
  | sleep d => some d
  | _ => none

def isLog : Event → Bool
  | log _ => true
  | _ => false

def isInfo : Event → Bool
  | info => true
  | _ => false

/-- The events that go over the network: the store commands and the upload. -/
def isNetwork : Event → Bool
  | clientSetName => true
  | info => true
  | lastSave => true
  | bgSave => true
  | configGet _ => true
  | uploadToS3 _ => true
  | _ => false

/-- The events of the encrypt, upload, delete pipeline. -/
def isPipeline (e : Event) : Bool := e.isEncrypt || e.isUpload || e.isRemove

/-- The events that the tail of a backup cycle can make: log lines, the
`CONFIG GET`, and the pipeline. -/
def isFinish (e : Event) : Bool := e.isLog || e.isConfigGet || e.isPipeline

/-- The events that an iteration of the loop of `startLoop` can make. -/
def isIter (e : Event) : Bool :=
  e.isFinish || e.isLastSave || e.isSleep || e.isBgSave || e.isInfo

end Event

/-- The durations of the `time.Sleep` calls of a list of events, in order. -/
def sleepsOf (es : List Event) : List Int := es.filterMap Event.sleepDuration

/-- The number of `LASTSAVE` reads made after the first `BGSAVE` trigger. -/
def pollReads (es : List Event) : Nat :=
  (es.dropWhile (fun e => !e.isBgSave)).countP Event.isLastSave

/-- The value given to `panic`: a value of interface type `error`, or a
plain string (which does not satisfy the `err.(error)` assertion of `main`). -/
inductive PanicVal where
  | error (err : Err)
  | string (s : GoString)
  deriving DecidableEq, Repr

/-- An open `*os.File`. -/
structure Handle where
  path : GoString
  writing : Bool
  deriving DecidableEq, Repr

/-- The local state the code acts on: the files it has on disk and the
file handles it holds open. -/
structure Disk where
  files : List GoString
  handles : List Handle
  deriving DecidableEq, Repr

/-- What a piece of code did: the calls it made, the local state it left,
and how it ended. -/
structure Run (ρ : Type) where
  events : List Event
  disk : Disk
  out : ρ

/-! ## Oracles: how the outside world answers -/

/-- The answers to the calls of one `encrypt`; `none` is a nil error. -/
structure EncryptEnv where
  /-- Result of `age.ParseX25519Recipient(key)`, for each key. -/
  parseRecipient : GoString → Option Err
  /-- Result of `time.Now().Format(time.RFC3339)`. -/
  now : GoString
  /-- Result of `os.Create(agefile)`. -/
  create : Option Err
  /-- Result of `age.Encrypt(dst, v)`. -/
  ageEncrypt : Option Err
  /-- Result of `os.Open(file)`. -/
  openSrc : Option Err
  /-- Result of `io.Copy(dst_w, src)`. -/
  copy : Option Err
  /-- Result of `dst_w.Close()`. -/
  closeWriter : Option Err
  /-- The deferred `dst.Close()`. -/
  closeDst : Option Err

/-- The answers to the calls of one `uploadToS3`. -/
structure UploadEnv where
  /-- Result of `session.NewSession(...)`; `session.Must` panics on an error. -/
  newSession : Option Err
  /-- Result of `os.Open(file)`. -/
  openSrc : Option Err
  /-- Result of `s3.Upload(...)`: the location of the object, or an error. -/
  upload : Except Err GoString
  /-- Result of `src.Close()`. -/
  closeSrc : Option Err

/-- The answers to the calls of one `startBackup`. -/
structure CycleEnv where
  /-- The first `conn.LastSave`, before the trigger. -/
  lastSave : Except Err Int
  /-- Result of `conn.BgSave`. -/
  bgSave : Except Err GoString
  /-- Result of `conn.LastSave` of the poll with loop counter `i`. -/
  poll : Nat → Except Err Int
  /-- Result of `conn.ConfigGet(ctx, "dir")`: a map. -/
  configGet : Except Err (List (GoString × GoString))
  encrypt : EncryptEnv
  upload : UploadEnv
  /-- Result of `os.Remove(agefile)`. -/
  remove : Option Err

/-- The answers to the calls of one iteration of the loop of `startLoop`. -/
structure IterEnv where
  /-- Result of `connection.Info(ctx).Result()`. -/
  info : Except Err GoString
  cycle : CycleEnv

/-- The answers to the calls of one `startLoop`. -/
structure LoopEnv where
  /-- Result of `conn.ClientSetName(...)` in `connect`. -/
  connect : Option Err
  /-- The iterations, counted from 0. -/
  iter : Nat → IterEnv

/-- The answers to the calls of `main`. -/
structure MainEnv where
  /-- Result of `env.Parse(opts)`: the parsed options, or an error. -/
  envParse : Except Err _opts
  /-- Result of `time.ParseDuration`. -/
  parseDuration : GoString → Except Err Int
  /-- The `startLoop` called from `main`. -/
  first : LoopEnv
  /-- The `startLoop` called from the deferred function. -/
  second : LoopEnv

/-- How the process stands: still looping, ended by `log.Fatalf`
(`os.Exit(1)`), or ended by a panic nobody recovered. -/
inductive Status where
  | running
  | exit (code : Nat)
  | crashed (v : PanicVal)
  deriving DecidableEq, Repr

/-! ## The code -/

/-- Go `encrypt(key, file)`.  The result pair is `(agefile, err)`.
`os.Create` puts the artifact on disk and opens `dst`; `os.Open` opens
`src`; the deferred `dst.Close()` runs on every return after `os.Create`
succeeded, and what it returns is dropped. -/
def encrypt (key file : GoString) (w : EncryptEnv) (d : Disk) :
    (GoString × Option Err) × Disk :=
  match w.parseRecipient key with
  | some err => (([], some err), d)
  | none =>
    let agefile := "dump-".toList ++ w.now ++ ".rdb.age".toList
    match w.create with
    | some err => (([], some err), d)
    | none =>
      let dst : Handle := ⟨agefile, true⟩
      let d1 : Disk := ⟨d.files.insert agefile, dst :: d.handles⟩
      let deferred : Disk → Disk := fun x => ⟨x.files, x.handles.erase dst⟩
      match w.ageEncrypt with
      | some err => (([], some err), deferred d1)
      | none =>
        match w.openSrc with
        | some err => (([], some err), deferred d1)
        | none =>
          let src : Handle := ⟨file, false⟩
          let d2 : Disk := ⟨d1.files, src :: d1.handles⟩
          match w.copy with
          | some err => (([], some err), deferred d2)
          | none => ((agefile, w.closeWriter), deferred d2)

/-- Go `uploadToS3(file, opts)`: the returned error, or the panic of
`session.Must`.  The options only shape the arguments of the calls (region,
bucket, key). -/
def uploadToS3 (file : GoString) (_o : _opts) (w : UploadEnv) (d : Disk) :
    Run (Except PanicVal (Option Err)) :=
  match w.newSession with
  | some err => ⟨[], d, .error (.error err)⟩
  | none =>
    match w.openSrc with
    | some err => ⟨[], d, .ok (some err)⟩
    | none =>
      let src : Handle := ⟨file, false⟩
      let d1 : Disk := ⟨d.files, src :: d.handles⟩
      match w.upload with
      | .error err => ⟨[], d1, .ok (some err)⟩
      | .ok location =>
        ⟨[.log ("successfully uploaded backup to ".toList ++ location)],
          ⟨d1.files, d1.handles.erase src⟩, .ok w.closeSrc⟩

/-- Go `os.Remove(name)`: the file is gone when the call succeeds. -/
def osRemove (fault : Option Err) (name : GoString) (d : Disk) : Option Err × Disk :=
  match fault with
  | some err => (some err, d)
  | none => (none, ⟨d.files.filter (fun f => f ≠ name), d.handles⟩)

/-- Go map index `m[key]` on a `map[string]string`: the zero value `""`
when the key is absent. -/
def mapIndex (m : List (GoString × GoString)) (key : GoString) : GoString :=
  (m.lookup key).getD []

/-- The panic value of the exhausted poll loop. -/
def timedOut : GoString :=
  "timed out waiting for bgsave to complete, try increasing RETRY_WAIT_TIME_IN_SECONDS value".toList

/-- The part of the loop body of `startBackup` that runs once the save
timestamp has changed (from "successfully backed up redis" to `break`).
`none` is a normal end, `some v` is `panic(v)`. -/
def finishBackup (opts : _opts) (c : CycleEnv) (d : Disk) : Run (Option PanicVal) :=
  let e0 : List Event :=
    [.log "successfully backed up redis".toList, .configGet "dir".toList]
  match c.configGet with
  | .error err => ⟨e0, d, some (.error err)⟩
  | .ok dir =>
    let backupFile := mapIndex dir "dir".toList ++ "/dump.rdb".toList
    let e1 : List Event :=
      e0 ++ [.log ("backup file: ".toList ++ backupFile), .encrypt opts.PublicKey backupFile]
    match encrypt opts.PublicKey backupFile c.encrypt d with
    | ((_, some err), d1) => ⟨e1, d1, some (.error err)⟩
    | ((agefile, none), d1) =>
      let up := uploadToS3 agefile opts c.upload d1
      let e2 : List Event := e1 ++ [.uploadToS3 agefile] ++ up.events
      match up.out with
      | .error v => ⟨e2, up.disk, some v⟩
      | .ok (some err) => ⟨e2, up.disk, some (.error err)⟩
      | .ok none =>
        match osRemove c.remove agefile up.disk with
        | (some _, d3) =>
          ⟨e2 ++ [.remove agefile,
              .log ("failed to delete encrypted backup file ".toList ++ agefile)], d3, none⟩
        | (none, d3) => ⟨e2 ++ [.remove agefile], d3, none⟩

/-- The loop `for i := 0; i < 5; i++` of `startBackup`, from counter `i`
with the current `waitTime`.  The first argument bounds the iterations
left; started as `pollLoop 5 0`, it is zero exactly when `i = 5`. -/
def pollLoop (opts : _opts) (c : CycleEnv) (last : Int) :
    Nat → Nat → Int → Disk → Run (Option PanicVal)
  | 0, _, _, d => ⟨[], d, none⟩
  | fuel + 1, i, waitTime, d =>
    if i < 5 then
      match c.poll i with
      | .error err => ⟨[.lastSave], d, some (.error err)⟩
      | .ok now =>
        if now = last then
          if i = 4 then ⟨[.lastSave], d, some (.string timedOut)⟩
          else
            let r := pollLoop opts c last fuel (i + 1) (wrap64 (waitTime + waitTime)) d
            ⟨.lastSave :: .sleep (wrap64 (Second * waitTime)) :: r.events, r.disk, r.out⟩
        else
          let r := finishBackup opts c d
          ⟨.lastSave :: r.events, r.disk, r.out⟩
    else ⟨[], d, none⟩

/-- Go `startBackup`.  `none` is a normal return, `some v` is `panic(v)`. -/
def startBackup (opts : _opts) (c : CycleEnv) (d : Disk) : Run (Option PanicVal) :=
  let e0 : List Event := [.log "running backup ...".toList, .lastSave]
  match c.lastSave with
  | .error err => ⟨e0, d, some (.error err)⟩
  | .ok last =>
    match c.bgSave with
    | .error err => ⟨e0 ++ [.bgSave], d, some (.error err)⟩
    | .ok bgSave =>
      let e1 : List Event := e0 ++ [.bgSave, .log ("BGSAVE: ".toList ++ bgSave)]
      let r := pollLoop opts c last 5 0 opts.RetryWaitTimeInSeconds d
      match r.out with
      | some v => ⟨e1 ++ r.events, r.disk, some v⟩
      | none =>
        ⟨e1 ++ r.events ++
            [.log ("backup done, waiting ".toList ++ opts.Frequency ++ " for next..".toList)],
          r.disk, none⟩

/-- One iteration of the `for` loop of `startLoop`: the leadership check,
the backup cycle of a master, and the sleep. -/
def loopBody (opts : _opts) (w : IterEnv) (d : Disk) : Run (Option PanicVal) :=
  match isMaster w.info with
  | (_, some err) => ⟨[.info], d, some (.error err)⟩
  | (false, none) =>
    ⟨[.info, .log "not a master node, skipping operation".toList, .sleep opts.frequency],
      d, none⟩
  | (true, none) =>
    let r := startBackup opts w.cycle d
    match r.out with
    | some v => ⟨.info :: r.events, r.disk, some v⟩
    | none => ⟨.info :: r.events ++ [.sleep opts.frequency], r.disk, none⟩

/-- The `for` loop of `startLoop` from iteration `n`, for at most `fuel`
iterations: `some v` when an iteration panics with `v`, `none` when the
loop is still going after `fuel` iterations. -/
def forLoop (opts : _opts) (w : LoopEnv) : Nat → Nat → Disk → Run (Option PanicVal)
  | 0, _, d => ⟨[], d, none⟩
  | fuel + 1, n, d =>
    let r := loopBody opts (w.iter n) d
    match r.out with
    | some v => ⟨r.events, r.disk, some v⟩
    | none =>
      let r2 := forLoop opts w fuel (n + 1) r.disk
      ⟨r.events ++ r2.events, r2.disk, r2.out⟩

/-- Go `connect`: the one network call is `ClientSetName`. -/
def connect (_o : _opts) (w : LoopEnv) : List Event × Option Err :=
  ([.clientSetName], w.connect)

/-- Go `startLoop`, run for at most `fuel` iterations of its loop.  It
never returns normally: `some v` is `panic(v)`, after which the deferred
`conn.Close()` has run; `none` is a loop still going. -/
def startLoop (opts : _opts) (w : LoopEnv) (fuel : Nat) (d : Disk) :
    Run (Option PanicVal) :=
  match connect opts w with
  | (e0, some err) => ⟨e0, d, some (.error err)⟩
  | (e0, none) =>
    let r := forLoop opts w fuel 0 d
    match r.out with
    | some v => ⟨e0 ++ r.events ++ [.connClose], r.disk, some v⟩
    | none => ⟨e0 ++ r.events, r.disk, none⟩

/-- The signature of a lost connection looked for by `main`. -/
def badStateEOF : GoString := "bad state: EOF".toList

/-- Go `main`, each `startLoop` run for at most `fuel` iterations.  The
deferred function recovers the panic of the first `startLoop`: a value that
is not an `error` is panicked again; an `error` with the signature makes it
log and call `startLoop` once more; then the value is panicked again. -/
def main (w : MainEnv) (fuel : Nat) (d : Disk) : Run Status :=
  match w.envParse with
  | .error err =>
    ⟨[.log ("failed to parse environment for environment variables: ".toList ++ err)],
      d, .exit 1⟩
  | .ok parsed =>
    match w.parseDuration parsed.Frequency with
    | .error err => ⟨[.log ("failed to parse backup frequency: ".toList ++ err)], d, .exit 1⟩
    | .ok freq =>
      let opts : _opts := { parsed with frequency := freq }
      let r := startLoop opts w.first fuel d
      match r.out with
      | none => ⟨r.events, r.disk, .running⟩
      | some (.string s) => ⟨r.events, r.disk, .crashed (.string s)⟩
      | some (.error err) =>
        if Contains err badStateEOF then
          let r2 := startLoop opts w.second fuel r.disk
          let e2 : List Event :=
            r.events ++ [.log "connection closed, reconnecting...".toList] ++ r2.events
          match r2.out with
          | none => ⟨e2, r2.disk, .running⟩
          | some v => ⟨e2, r2.disk, .crashed v⟩
        else ⟨r.events, r.disk, .crashed (.error err)⟩

/-! ## Vocabulary of the claims -/

/-- The save timestamp first changes on poll attempt `k` (attempts numbered
from 1, `k ≤ 5`): the read before the trigger gives `T0`, the trigger
succeeds, the first `k - 1` polls give `T0` again and the `k`-th poll gives
another value. -/
def ChangesAt (c : CycleEnv) (T0 : Int) (k : Nat) : Prop :=
  1 ≤ k ∧ k ≤ 5 ∧ c.lastSave = .ok T0 ∧ (∃ s, c.bgSave = .ok s) ∧
    (∀ j, j + 1 < k → c.poll j = .ok T0) ∧ (∃ t, c.poll (k - 1) = .ok t ∧ t ≠ T0)

/-- All five polls succeed and give the timestamp `T0` read before the
(successful) trigger. -/
def NeverChanges (c : CycleEnv) (T0 : Int) : Prop :=
  c.lastSave = .ok T0 ∧ (∃ s, c.bgSave = .ok s) ∧ ∀ j, j < 5 → c.poll j = .ok T0

/-- The value of `waitTime` after `j` executions of `waitTime += waitTime`,
starting from `base`. -/
def waitTimeAt (base : Int) : Nat → Int
  | 0 => base
  | j + 1 => wrap64 (waitTimeAt base j + waitTimeAt base j)

/-- The events of `m` failed polls in a row, the first with wait time `w`:
each is a `LASTSAVE` read followed by the backoff sleep. -/
def backoffEvents : Int → Nat → List Event
  | _, 0 => []
  | w, m + 1 =>
    .lastSave :: .sleep (wrap64 (Second * w)) :: backoffEvents (wrap64 (w + w)) m

/-- Walk a list of events up to its `i`-th `LASTSAVE` read (counted from 1)
and give the duration of the sleep made immediately before that read, if
the event before it is a sleep.  `prev` is that information for the event
just passed. -/
def sleepBeforeRead : List Event → Nat → Option Int → Option Int
  | [], _, _ => none
  | e :: es, i, prev =>
    if e.isLastSave then
      if i = 1 then prev else sleepBeforeRead es (i - 1) none
    else sleepBeforeRead es i e.sleepDuration

/-- The backoff wait slept immediately before poll attempt `i` (attempts
numbered from 1) of a backup cycle with events `es`.  Poll attempt `i` is
the `i + 1`-th `LASTSAVE` of the cycle, the first being the read before the
trigger. -/
def waitBefore (es : List Event) (i : Nat) : Option Int := sleepBeforeRead es (i + 1) none

/-- The options as `main` hands them to `startLoop`: the parsed environment
with the parsed interval in `frequency`. -/
def configured (parsed : _opts) (freq : Int) : _opts := { parsed with frequency := freq }

/-- The number of times a connection is opened, that is the number of
times `startLoop` is entered. -/
def entries (es : List Event) : Nat := es.countP Event.isConnect

/-- The first four events of a backup cycle whose trigger succeeded with
answer `s`. -/
def cycleStart (s : GoString) : List Event :=
  [.log "running backup ...".toList, .lastSave, .bgSave, .log ("BGSAVE: ".toList ++ s)]

/-- The last log line of `startBackup`, written when the poll loop ended
without a panic. -/
def doneLog (opts : _opts) : Option PanicVal → List Event
  | none => [.log ("backup done, waiting ".toList ++ opts.Frequency ++ " for next..".toList)]
  | some _ => []

/-! ## Sample configuration and oracles -/

/-- The configuration of the scenario: interval `1h`, base wait 10. -/
def sampleOpts : _opts where
  DatabaseString := "localhost:6379".toList
  DatabasePassword := []
  DatabaseUsername := []
  Frequency := "1h".toList
  PublicKey := "age1sample".toList
  AWSRegion := "eu-west-1".toList
  AWSBucket := "backups".toList
  BucketDirectory := "redis".toList
  RetryWaitTimeInSeconds := 10
  frequency := 3600 * Second

/-- An `encrypt` in which every call succeeds. -/
def sampleEncryptEnv : EncryptEnv where
  parseRecipient := fun _ => none
  now := "2024-01-01T00:00:00Z".toList
  create := none
  ageEncrypt := none
  openSrc := none
  copy := none
  closeWriter := none
  closeDst := none

/-- An `uploadToS3` in which every call succeeds. -/
def sampleUploadEnv : UploadEnv where
  newSession := none
  openSrc := none
  upload := .ok "https://backups.s3/redis/dump.rdb.age".toList
  closeSrc := none

/-- A cycle whose save timestamp is 100 before the trigger and at the
first `k - 1` polls, and 200 from poll `k` on (polls counted from 1);
everything else succeeds. -/
def sampleCycle (k : Nat) : CycleEnv where
  lastSave := .ok 100
  bgSave := .ok "Background saving started".toList
  poll := fun i => if i + 1 < k then .ok 100 else .ok 200
  configGet := .ok [("dir".toList, "/data".toList)]
  encrypt := sampleEncryptEnv
  upload := sampleUploadEnv
  remove := none

/-- A cycle whose save timestamp never changes. -/
def stuckCycle : CycleEnv :=
  { sampleCycle 2 with poll := fun _ => .ok 100 }

/-- The sample configuration with a base wait of 9223372037 seconds, which
is more nanoseconds than an `int64` holds. -/
def hugeWaitOpts : _opts := { sampleOpts with RetryWaitTimeInSeconds := 9223372037 }

/-- A cycle in which everything succeeds but the deletion of the artifact. -/
def keepCycle : CycleEnv :=
  { sampleCycle 1 with remove := some "remove: permission denied".toList }

/-- The error of `time.ParseDuration` on a string `s` that is no duration:
the message `time: invalid duration` followed by `s` in double quotes
(code unit 34). -/
def invalidDuration (s : GoString) : Err :=
  "time: invalid duration ".toList ++ Char.ofNat 34 :: s ++ [Char.ofNat 34]

/-- A table of `time.ParseDuration`: its results on three inputs; every
other string is taken to be rejected. -/
def sampleParseDuration (s : GoString) : Except Err Int :=
  if s = "1h".toList then .ok (3600 * Second)
  else if s = "-1h".toList then .ok (-(3600 * Second))
  else if s = "0s".toList then .ok 0
  else .error (invalidDuration s)

/-- A `startLoop` on a replica: the connection succeeds and every role
report says `role:slave`. -/
def followerLoop : LoopEnv where
  connect := none
  iter := fun _ => ⟨.ok "role:slave".toList, sampleCycle 1⟩

/-- A `startLoop` whose connection is lost at the third role query. -/
def lostLoop : LoopEnv where
  connect := none
  iter := fun n =>
    ⟨if n < 2 then .ok "role:slave".toList else .error "redis: bad state: EOF".toList,
      sampleCycle 1⟩

/-- A `startLoop` whose first cycle never sees the save complete. -/
def stuckLoop : LoopEnv where
  connect := none
  iter := fun _ => ⟨.ok "role:master".toList, stuckCycle⟩

/-- The world of a `main` whose environment parses to `o`. -/
def sampleMain (o : _opts) (first second : LoopEnv) : MainEnv where
  envParse := .ok o
  parseDuration := sampleParseDuration
  first := first
  second := second

/-- An empty disk. -/
def emptyDisk : Disk := ⟨[], []⟩

/-- The name of the artifact of the sample cycles. -/
def sampleAgefile : GoString := "dump-2024-01-01T00:00:00Z.rdb.age".toList

/-! ## Facts about the string functions -/

theorem Index_isSome_iff (s sub : GoString) : (Index s sub).isSome = true ↔ sub <:+: s := by
  induction s with
  | nil =>
    cases sub with
    | nil => simp [Index]
    | cons a l => simp [Index, List.isPrefixOf]
  | cons c t ih =>
    rw [List.infix_cons_iff, ← ih]
    by_cases h : sub.isPrefixOf (c :: t) = true
    · simp [Index, h, List.isPrefixOf_iff_prefix.mp h]
    · have h2 : ¬ sub <+: c :: t := fun hp => h (List.isPrefixOf_iff_prefix.mpr hp)
      simp [Index, h, h2]

theorem Contains_iff (s sub : GoString) : Contains s sub = true ↔ sub <:+: s :=
  Index_isSome_iff s sub

theorem Index_some_eq (sub : GoString) :
    ∀ (s : GoString) (m : Nat), Index s sub = some m →
      s = s.take m ++ (sub ++ s.drop (m + sub.length)) := by
  intro s
  induction s with
  | nil =>
    intro m h
    cases sub with
    | nil => simp
    | cons a l => simp [Index, List.isPrefixOf] at h
  | cons c t ih =>
    intro m h
    by_cases hp : sub.isPrefixOf (c :: t) = true
    · simp [Index, hp] at h
      subst h
      obtain ⟨r, hr⟩ := List.isPrefixOf_iff_prefix.mp hp
      have hd : (c :: t).drop sub.length = r := by
        rw [← hr]; simp
      simp only [List.take_zero, List.nil_append, Nat.zero_add]
      rw [hd, hr]
    · simp only [Index, hp] at h
      cases hi : Index t sub with
      | none => simp [hi] at h
      | some k =>
        simp [hi] at h
        subst h
        have := ih k hi
        simp only [List.take_succ_cons, List.cons_append, Nat.add_right_comm k 1,
          List.drop_succ_cons]
        exact congrArg (c :: ·) this

/-- A pattern free of the byte `x` that occurs in `a ++ x :: b` occurs in
`a` or in `b`. -/
theorem infix_append_cons_iff {pat a b : GoString} {x : Char} (hx : x ∉ pat) :
    pat <:+: a ++ x :: b ↔ pat <:+: a ∨ pat <:+: b := by
  constructor
  · rintro ⟨s, t, h⟩
    rw [List.append_assoc, List.append_eq_append_iff] at h
    rcases h with ⟨a1, ha, h1⟩ | ⟨c1, hs, h1⟩
    · rw [List.append_eq_append_iff] at h1
      rcases h1 with ⟨d, hd, _⟩ | ⟨d, hd, h2⟩
      · left
        exact ⟨s, d, by rw [ha, hd, List.append_assoc]⟩
      · cases d with
        | nil =>
          left
          exact ⟨s, [], by simp [ha, hd]⟩
        | cons y d1 =>
          exfalso
          simp only [List.cons_append, List.cons.injEq] at h2
          apply hx
          rw [hd, h2.1]
          simp
    · cases c1 with
      | nil =>
        cases pat with
        | nil => left; exact ⟨[], a, by simp⟩
        | cons y p1 =>
          exfalso
          simp only [List.nil_append, List.cons_append, List.cons.injEq] at h1
          apply hx
          rw [h1.1]
          simp
      | cons y c2 =>
        right
        simp only [List.cons_append, List.cons.injEq] at h1
        exact ⟨c2, t, by rw [h1.2, List.append_assoc]⟩
  · rintro (h | h)
    · exact h.trans (List.infix_append' [] a (x :: b))
    · exact h.trans ⟨a ++ [x], [], by simp⟩

theorem scanLines_iff (ls : List GoString) :
    scanLines ls = true ↔ ∃ l ∈ ls, roleMaster <:+: l := by
  induction ls with
  | nil => simp [scanLines]
  | cons l rest ih =>
    by_cases h : Contains l roleMaster = true
    · have := (Contains_iff l roleMaster).mp h
      simp [scanLines, h, this]
    · have h2 : ¬ roleMaster <:+: l := fun hp => h ((Contains_iff l roleMaster).mpr hp)
      simp [scanLines, h, h2, ih]

theorem genSplit_newline_infix {pat : GoString} (hx : '\n' ∉ pat) :
    ∀ (n : Nat) (s : GoString),
      (∃ l ∈ genSplit ['\n'] n s, pat <:+: l) ↔ pat <:+: s := by
  intro n
  induction n with
  | zero => intro s; simp [genSplit]
  | succ n ih =>
    intro s
    cases hi : Index s ['\n'] with
    | none => simp [genSplit, hi]
    | some m =>
      have hs := Index_some_eq ['\n'] s m hi
      simp only [genSplit, hi, List.mem_cons, exists_eq_or_imp, ih]
      conv_rhs => rw [hs]
      rw [List.singleton_append, infix_append_cons_iff hx]

theorem scanLines_Split_iff (v : GoString) :
    scanLines (Split v "\n".toList) = true ↔ roleMaster <:+: v := by
  rw [scanLines_iff]
  exact genSplit_newline_infix (by decide) _ v

theorem isMaster_ok (v : GoString) :
    isMaster (.ok v) = (decide (roleMaster <:+: v), none) := by
  have hb : scanLines (Split v "\n".toList) = decide (roleMaster <:+: v) := by
    by_cases h : roleMaster <:+: v
    · rw [(scanLines_Split_iff v).mpr h, decide_eq_true h]
    · have : scanLines (Split v "\n".toList) = false := by
        cases hs : scanLines (Split v "\n".toList) with
        | false => rfl
        | true => exact absurd ((scanLines_Split_iff v).mp hs) h
      rw [this, decide_eq_false h]
  simp only [isMaster, hb]

/-! ## The poll loop -/

theorem pollLoop_changes (opts : _opts) (c : CycleEnv) (last : Int) (d : Disk) :
    ∀ (m fuel i : Nat) (w : Int), i + m < 5 → m < fuel →
      (∀ j, j < m → c.poll (i + j) = .ok last) →
      (∃ t, c.poll (i + m) = .ok t ∧ t ≠ last) →
      pollLoop opts c last fuel i w d =
        ⟨backoffEvents w m ++ .lastSave :: (finishBackup opts c d).events,
          (finishBackup opts c d).disk, (finishBackup opts c d).out⟩ := by
  intro m
  induction m with
  | zero =>
    intro fuel i w hi hf _ ht
    obtain ⟨t, ht, hne⟩ := ht
    obtain ⟨f, rfl⟩ : ∃ f, fuel = f + 1 := ⟨fuel - 1, by omega⟩
    have hi5 : i < 5 := by omega
    simp only [Nat.add_zero] at ht
    simp [pollLoop, hi5, ht, hne, backoffEvents]
  | succ m ih =>
    intro fuel i w hi hf hsame ht
    obtain ⟨f, rfl⟩ : ∃ f, fuel = f + 1 := ⟨fuel - 1, by omega⟩
    have hi5 : i < 5 := by omega
    have hi4 : i ≠ 4 := by omega
    have h0 : c.poll i = .ok last := by simpa using hsame 0 (by omega)
    have hrec := ih f (i + 1) (wrap64 (w + w)) (by omega) (by omega)
      (fun j hj => by
        have := hsame (j + 1) (by omega)
        rwa [show i + (j + 1) = i + 1 + j by omega] at this)
      (by rwa [show i + 1 + m = i + (m + 1) by omega])
    simp [pollLoop, hi5, hi4, h0, hrec, backoffEvents]

theorem pollLoop_never (opts : _opts) (c : CycleEnv) (last : Int) (d : Disk) :
    ∀ (m fuel i : Nat) (w : Int), i + m = 4 → m < fuel →
      (∀ j, j ≤ m → c.poll (i + j) = .ok last) →
      pollLoop opts c last fuel i w d =
        ⟨backoffEvents w m ++ [.lastSave], d, some (.string timedOut)⟩ := by
  intro m
  induction m with
  | zero =>
    intro fuel i w hi hf hsame
    obtain ⟨f, rfl⟩ : ∃ f, fuel = f + 1 := ⟨fuel - 1, by omega⟩
    have hi4 : i = 4 := by omega
    have h0 : c.poll 4 = .ok last := by simpa [hi4] using hsame 0 (by omega)
    subst hi4
    simp [pollLoop, h0, backoffEvents]
  | succ m ih =>
    intro fuel i w hi hf hsame
    obtain ⟨f, rfl⟩ : ∃ f, fuel = f + 1 := ⟨fuel - 1, by omega⟩
    have hi5 : i < 5 := by omega
    have hi4 : i ≠ 4 := by omega
    have h0 : c.poll i = .ok last := by simpa using hsame 0 (by omega)
    have hrec := ih f (i + 1) (wrap64 (w + w)) (by omega) (by omega)
      (fun j hj => by
        have := hsame (j + 1) (by omega)
        rwa [show i + (j + 1) = i + 1 + j by omega] at this)
    simp [pollLoop, hi5, hi4, h0, hrec, backoffEvents]

/-! ## The tail of a cycle -/

theorem uploadToS3_all (file : GoString) (o : _opts) (w : UploadEnv) (d : Disk) :
    (uploadToS3 file o w d).events.all Event.isFinish = true := by
  unfold uploadToS3
  split
  · rfl
  · split
    · rfl
    · split
      · rfl
      · rfl

theorem finishBackup_all (opts : _opts) (c : CycleEnv) (d : Disk) :
    (finishBackup opts c d).events.all Event.isFinish = true := by
  cases hc : c.configGet with
  | error err =>
    simp only [finishBackup, hc]
    rfl
  | ok dir =>
    rcases hen : encrypt opts.PublicKey (mapIndex dir "dir".toList ++ "/dump.rdb".toList)
      c.encrypt d with ⟨⟨f, _ | err⟩, d1⟩
    · have hup := uploadToS3_all f opts c.upload d1
      cases hu : (uploadToS3 f opts c.upload d1).out with
      | error v =>
        simp only [finishBackup, hc, hen, hu]
        simp [hup, Event.isFinish, Event.isLog, Event.isConfigGet, Event.isPipeline,
          Event.isEncrypt, Event.isUpload]
      | ok oe =>
        cases oe with
        | some err =>
          simp only [finishBackup, hc, hen, hu]
          simp [hup, Event.isFinish, Event.isLog, Event.isConfigGet, Event.isPipeline,
            Event.isEncrypt, Event.isUpload]
        | none =>
          rcases hr : osRemove c.remove f (uploadToS3 f opts c.upload d1).disk with
            ⟨_ | err, d3⟩
          · simp only [finishBackup, hc, hen, hu, hr]
            simp [hup, Event.isFinish, Event.isLog, Event.isConfigGet, Event.isPipeline,
              Event.isEncrypt, Event.isUpload, Event.isRemove]
          · simp only [finishBackup, hc, hen, hu, hr]
            simp [hup, Event.isFinish, Event.isLog, Event.isConfigGet, Event.isPipeline,
              Event.isEncrypt, Event.isUpload, Event.isRemove]
    · simp only [finishBackup, hc, hen]
      rfl

/-! ## The shape of a backup cycle -/

theorem startBackup_changes (opts : _opts) (c : CycleEnv) (d : Disk) (T0 : Int) (k : Nat)
    (s : GoString) (h : ChangesAt c T0 k) (hs : c.bgSave = .ok s) :
    startBackup opts c d =
      ⟨cycleStart s ++ backoffEvents opts.RetryWaitTimeInSeconds (k - 1) ++
          .lastSave :: ((finishBackup opts c d).events ++ doneLog opts (finishBackup opts c d).out),
        (finishBackup opts c d).disk, (finishBackup opts c d).out⟩ := by
  obtain ⟨hk1, hk5, hlast, _, hsame, hchg⟩ := h
  have hp := pollLoop_changes opts c T0 d (k - 1) 5 0 opts.RetryWaitTimeInSeconds
    (by omega) (by omega)
    (fun j hj => by rw [Nat.zero_add]; exact hsame j (by omega))
    (by rwa [Nat.zero_add])
  cases ho : (finishBackup opts c d).out with
  | none =>
    simp only [startBackup, hlast, hs, hp, ho, doneLog, cycleStart]
    simp
  | some v =>
    simp only [startBackup, hlast, hs, hp, ho, doneLog, cycleStart]
    simp

theorem startBackup_never (opts : _opts) (c : CycleEnv) (d : Disk) (T0 : Int)
    (s : GoString) (h : NeverChanges c T0) (hs : c.bgSave = .ok s) :
    startBackup opts c d =
      ⟨cycleStart s ++ backoffEvents opts.RetryWaitTimeInSeconds 4 ++ [.lastSave],
        d, some (.string timedOut)⟩ := by
  obtain ⟨hlast, _, hsame⟩ := h
  have hp := pollLoop_never opts c T0 d 4 5 0 opts.RetryWaitTimeInSeconds
    (by omega) (by omega)
    (fun j hj => by rw [Nat.zero_add]; exact hsame j (by omega))
  simp only [startBackup, hlast, hs, hp, cycleStart]
  simp

/-! ## Counting events -/

theorem sleepsOf_append (a b : List Event) : sleepsOf (a ++ b) = sleepsOf a ++ sleepsOf b := by
  simp [sleepsOf]

theorem sleepsOf_cycleStart (s : GoString) : sleepsOf (cycleStart s) = [] := rfl

theorem sleepsOf_of_finish (es : List Event) (h : es.all Event.isFinish = true) :
    sleepsOf es = [] := by
  induction es with
  | nil => rfl
  | cons e es ih =>
    simp only [List.all_cons, Bool.and_eq_true] at h
    cases e <;> simp_all [sleepsOf, Event.sleepDuration, Event.isFinish, Event.isLog,
      Event.isConfigGet, Event.isPipeline, Event.isEncrypt, Event.isUpload, Event.isRemove]

theorem countP_of_finish (p : Event → Bool) (hp : ∀ e, e.isFinish = true → p e = false)
    (es : List Event) (h : es.all Event.isFinish = true) : es.countP p = 0 := by
  rw [List.countP_eq_zero]
  intro e he
  rw [List.all_eq_true] at h
  simp [hp e (h e he)]

theorem doneLog_all (opts : _opts) (o : Option PanicVal) :
    (doneLog opts o).all Event.isFinish = true := by
  cases o <;> rfl

theorem tail_all (opts : _opts) (c : CycleEnv) (d : Disk) :
    ((finishBackup opts c d).events ++ doneLog opts (finishBackup opts c d).out).all
      Event.isFinish = true := by
  rw [List.all_append, finishBackup_all, doneLog_all]
  rfl

theorem waitTimeAt_shift (w : Int) (j : Nat) :
    waitTimeAt (wrap64 (w + w)) j = waitTimeAt w (j + 1) := by
  induction j with
  | zero => rfl
  | succ j ih =>
    rw [waitTimeAt, ih]
    rfl

theorem sleepsOf_backoff (m : Nat) :
    ∀ w : Int, sleepsOf (backoffEvents w m) =
      (List.range m).map (fun j => wrap64 (Second * waitTimeAt w j)) := by
  induction m with
  | zero => intro w; rfl
  | succ m ih =>
    intro w
    have h1 : sleepsOf (backoffEvents w (m + 1)) =
        wrap64 (Second * w) :: sleepsOf (backoffEvents (wrap64 (w + w)) m) := by
      simp [backoffEvents, sleepsOf, Event.sleepDuration]
    rw [h1, ih, List.range_succ_eq_map]
    simp [waitTimeAt_shift, waitTimeAt, Function.comp_def]

theorem countP_backoff (p : Event → Bool) (hs : ∀ x, p (.sleep x) = false) (m : Nat) :
    ∀ w : Int, (backoffEvents w m).countP p = if p .lastSave then m else 0 := by
  induction m with
  | zero => intro w; simp [backoffEvents]
  | succ m ih =>
    intro w
    simp only [backoffEvents, List.countP_cons, ih, hs]
    cases p .lastSave <;> simp

theorem filter_backoff (p : Event → Bool) (hs : ∀ x, p (.sleep x) = false)
    (hl : p .lastSave = false) (m : Nat) :
    ∀ w : Int, (backoffEvents w m).filter p = [] := by
  induction m with
  | zero => intro w; rfl
  | succ m ih =>
    intro w
    simp [backoffEvents, ih, hs, hl]

/-! ## Arithmetic of the backoff -/

theorem wrap64_eq (x : Int) (h1 : -(2 ^ 63) ≤ x) (h2 : x < 2 ^ 63) : wrap64 x = x := by
  unfold wrap64
  omega

theorem waitTimeAt_eq (b : Int) (hb : 0 ≤ b) :
    ∀ j : Nat, b * 2 ^ j < 2 ^ 63 → waitTimeAt b j = b * 2 ^ j := by
  intro j
  induction j with
  | zero => intro _; simp [waitTimeAt]
  | succ j ih =>
    intro h
    have hx : 0 ≤ b * 2 ^ j := mul_nonneg hb (by positivity)
    have h2 : b * 2 ^ (j + 1) = b * 2 ^ j + b * 2 ^ j := by ring
    rw [h2] at h
    rw [waitTimeAt, ih (by omega), h2]
    exact wrap64_eq _ (by omega) h

theorem sleep_eq (b : Int) (hb : 0 ≤ b) (j : Nat) (h : b * 2 ^ j * Second < 2 ^ 63) :
    wrap64 (Second * waitTimeAt b j) = b * 2 ^ j * Second := by
  have hx : 0 ≤ b * 2 ^ j := mul_nonneg hb (by positivity)
  unfold Second at h ⊢
  rw [waitTimeAt_eq b hb j (by omega), mul_comm]
  exact wrap64_eq _ (by omega) h

theorem backoff_sum (b : Int) (m : Nat) :
    ((List.range m).map (fun j => b * 2 ^ j * Second)).sum = b * (2 ^ m - 1) * Second := by
  induction m with
  | zero => simp
  | succ m ih =>
    rw [List.range_succ, List.map_append, List.sum_append, ih]
    simp
    ring

theorem sleepsOf_backoff_exact (b : Int) (hb : 0 ≤ b) (m : Nat) (hm : m ≤ 4)
    (hov : b * 8 * Second < 2 ^ 63) :
    sleepsOf (backoffEvents b m) = (List.range m).map (fun j => b * 2 ^ j * Second) := by
  rw [sleepsOf_backoff]
  apply List.map_congr_left
  intro j hj
  rw [List.mem_range] at hj
  apply sleep_eq b hb
  have hj3 : j ≤ 3 := by omega
  have hp : (2 : Int) ^ j ≤ 8 := by
    interval_cases j <;> norm_num
  have hS : (0 : Int) ≤ Second := by unfold Second; omega
  have : b * 2 ^ j * Second ≤ b * 8 * Second :=
    mul_le_mul_of_nonneg_right (mul_le_mul_of_nonneg_left hp hb) hS
  omega

/-! ## The wait before a poll attempt -/

theorem sleepBeforeRead_backoff (rest : List Event) (m : Nat) :
    ∀ (w : Int) (i : Nat) (prev : Option Int), 1 ≤ i → i ≤ m + 1 →
      sleepBeforeRead (backoffEvents w m ++ .lastSave :: rest) i prev =
        if i = 1 then prev else some (wrap64 (Second * waitTimeAt w (i - 2))) := by
  induction m with
  | zero =>
    intro w i prev h1 h2
    have : i = 1 := by omega
    subst this
    simp [backoffEvents, sleepBeforeRead, Event.isLastSave]
  | succ m ih =>
    intro w i prev h1 h2
    by_cases hi : i = 1
    · subst hi
      simp [backoffEvents, sleepBeforeRead, Event.isLastSave]
    · have hrec := ih (wrap64 (w + w)) (i - 1) (some (wrap64 (Second * w))) (by omega) (by omega)
      simp only [backoffEvents, List.cons_append, sleepBeforeRead, Event.isLastSave, hi,
        if_true, if_false, Event.sleepDuration, Bool.false_eq_true, List.append_eq]
      rw [hrec]
      by_cases hi2 : i - 1 = 1
      · have : i - 2 = 0 := by omega
        simp [hi2, this, waitTimeAt]
      · have : i - 1 - 2 + 1 = i - 2 := by omega
        simp [hi2, waitTimeAt_shift, this]

theorem waitBefore_changes (opts : _opts) (c : CycleEnv) (d : Disk) (T0 : Int) (k i : Nat)
    (h : ChangesAt c T0 k) (hi2 : 2 ≤ i) (hik : i ≤ k) :
    waitBefore (startBackup opts c d).events i =
      some (wrap64 (Second * waitTimeAt opts.RetryWaitTimeInSeconds (i - 2))) := by
  obtain ⟨s, hs⟩ := h.2.2.2.1
  have hne : i + 1 ≠ 1 := by omega
  have hne2 : i ≠ 1 := by omega
  rw [startBackup_changes opts c d T0 k s h hs]
  simp only [waitBefore, cycleStart, List.cons_append, List.nil_append, sleepBeforeRead,
    Event.isLastSave, Event.sleepDuration, hne, if_false, if_true, Nat.add_sub_cancel,
    Bool.false_eq_true, List.append_eq, List.nil_append]
  rw [sleepBeforeRead_backoff _ (k - 1) _ i none (by omega) (by omega)]
  simp [hne2]

/-! ## Reads of the save timestamp -/

theorem pollLoop_reads (opts : _opts) (c : CycleEnv) (last : Int) :
    ∀ (fuel i : Nat) (w : Int) (d : Disk),
      (pollLoop opts c last fuel i w d).events.countP Event.isLastSave ≤ fuel ∧
      (pollLoop opts c last fuel i w d).events.all Event.isIter = true := by
  intro fuel
  induction fuel with
  | zero => intro i w d; simp [pollLoop]
  | succ f ih =>
    intro i w d
    by_cases hi : i < 5
    · cases hp : c.poll i with
      | error err => simp [pollLoop, hi, hp, Event.isLastSave, Event.isIter]
      | ok now =>
        by_cases hn : now = last
        · by_cases h4 : i = 4
          · subst h4
            subst hn
            simp [pollLoop, hp, Event.isLastSave, Event.isIter]
          · have := ih (i + 1) (wrap64 (w + w)) d
            simp only [pollLoop, hi, hp, hn, h4, if_true, if_false, List.countP_cons,
              List.all_cons, this.2]
            simp [Event.isLastSave, Event.isIter, Event.isSleep]
            exact this.1
        · have hF := finishBackup_all opts c d
          have h0 := countP_of_finish Event.isLastSave
            (fun e he => by cases e <;> simp_all [Event.isFinish, Event.isLog,
              Event.isConfigGet, Event.isPipeline, Event.isEncrypt, Event.isUpload,
              Event.isRemove, Event.isLastSave]) _ hF
          have hall : (finishBackup opts c d).events.all Event.isIter = true := by
            rw [List.all_eq_true] at hF ⊢
            intro e he
            simp [Event.isIter, hF e he]
          simp only [pollLoop, hi, hp, hn, if_true, if_false, List.countP_cons, List.all_cons,
            h0, hall]
          simp [Event.isLastSave, Event.isIter]
    · simp [pollLoop, hi]

theorem startBackup_pollReads (opts : _opts) (c : CycleEnv) (d : Disk) :
    pollReads (startBackup opts c d).events ≤ 5 := by
  cases hl : c.lastSave with
  | error err => simp [startBackup, hl, pollReads, Event.isBgSave, Event.isLastSave]
  | ok last =>
    cases hb : c.bgSave with
    | error err => simp [startBackup, hl, hb, pollReads, Event.isBgSave, Event.isLastSave]
    | ok s =>
      have hr := (pollLoop_reads opts c last 5 0 opts.RetryWaitTimeInSeconds d).1
      cases ho : (pollLoop opts c last 5 0 opts.RetryWaitTimeInSeconds d).out with
      | some v =>
        simp only [startBackup, hl, hb, ho]
        simp [pollReads, Event.isBgSave, Event.isLastSave]
        exact hr
      | none =>
        simp only [startBackup, hl, hb, ho]
        simp [pollReads, Event.isBgSave, Event.isLastSave]
        exact hr

theorem sampleCycle_changesAt (k : Nat) (h1 : 1 ≤ k) (h5 : k ≤ 5) :
    ChangesAt (sampleCycle k) 100 k := by
  refine ⟨h1, h5, rfl, ⟨_, rfl⟩, ?_, ⟨200, ?_, by decide⟩⟩
  · intro j hj
    simp [sampleCycle, hj]
  · have : ¬ (k - 1 + 1 < k) := by omega
    simp [sampleCycle, this]

theorem stuckCycle_neverChanges : NeverChanges stuckCycle 100 :=
  ⟨rfl, ⟨_, rfl⟩, fun _ _ => rfl⟩

/-! ## Encrypt, upload and the artifact -/

theorem encrypt_ok_artifact (key file : GoString) (w : EncryptEnv) (d d1 : Disk)
    (f : GoString) (h : encrypt key file w d = ((f, none), d1)) : f ∈ d1.files := by
  cases h1 : w.parseRecipient key with
  | some err => simp [encrypt, h1] at h
  | none =>
    cases h2 : w.create with
    | some err => simp [encrypt, h1, h2] at h
    | none =>
      cases h3 : w.ageEncrypt with
      | some err => simp [encrypt, h1, h2, h3] at h
      | none =>
        cases h4 : w.openSrc with
        | some err => simp [encrypt, h1, h2, h3, h4] at h
        | none =>
          cases h5 : w.copy with
          | some err => simp [encrypt, h1, h2, h3, h4, h5] at h
          | none =>
            simp only [encrypt, h1, h2, h3, h4, h5, Prod.mk.injEq] at h
            obtain ⟨⟨hf, _⟩, hd⟩ := h
            rw [← hd, ← hf]
            simp

theorem uploadToS3_files (file : GoString) (o : _opts) (w : UploadEnv) (d : Disk) :
    (uploadToS3 file o w d).disk.files = d.files := by
  unfold uploadToS3
  split
  · rfl
  · split
    · rfl
    · split <;> rfl

theorem uploadToS3_logs (file : GoString) (o : _opts) (w : UploadEnv) (d : Disk)
    (p : Event → Bool) (hp : ∀ m, p (.log m) = false) :
    (uploadToS3 file o w d).events.filter p = [] := by
  unfold uploadToS3
  split
  · rfl
  · split
    · rfl
    · split
      · rfl
      · simp [hp]

/-- The events of the tail of a cycle up to and including the upload. -/
theorem finishBackup_uploaded (opts : _opts) (c : CycleEnv) (d d1 : Disk)
    (dir : List (GoString × GoString)) (f : GoString) (hdir : c.configGet = .ok dir)
    (henc : encrypt opts.PublicKey (mapIndex dir "dir".toList ++ "/dump.rdb".toList)
      c.encrypt d = ((f, none), d1))
    (hup : (uploadToS3 f opts c.upload d1).out = .ok none) :
    finishBackup opts c d =
      ⟨[.log "successfully backed up redis".toList, .configGet "dir".toList,
          .log ("backup file: ".toList ++ (mapIndex dir "dir".toList ++ "/dump.rdb".toList)),
          .encrypt opts.PublicKey (mapIndex dir "dir".toList ++ "/dump.rdb".toList),
          .uploadToS3 f] ++ (uploadToS3 f opts c.upload d1).events ++
          .remove f :: (match c.remove with
            | some _ => [.log ("failed to delete encrypted backup file ".toList ++ f)]
            | none => []),
        (osRemove c.remove f (uploadToS3 f opts c.upload d1).disk).2, none⟩ := by
  cases hr : c.remove with
  | none =>
    simp only [finishBackup, hdir, henc, hup, osRemove, hr]
    simp
  | some err =>
    simp only [finishBackup, hdir, henc, hup, osRemove, hr]
    simp

theorem finishBackup_upload_failed (opts : _opts) (c : CycleEnv) (d d1 : Disk)
    (dir : List (GoString × GoString)) (f : GoString) (hdir : c.configGet = .ok dir)
    (henc : encrypt opts.PublicKey (mapIndex dir "dir".toList ++ "/dump.rdb".toList)
      c.encrypt d = ((f, none), d1))
    (hup : (uploadToS3 f opts c.upload d1).out ≠ .ok none) :
    (finishBackup opts c d).events.countP Event.isRemove = 0 ∧
    (finishBackup opts c d).out ≠ none ∧
    (finishBackup opts c d).disk = (uploadToS3 f opts c.upload d1).disk := by
  have hl := uploadToS3_logs f opts c.upload d1 Event.isRemove (fun _ => rfl)
  have hl0 : (uploadToS3 f opts c.upload d1).events.countP Event.isRemove = 0 := by
    rw [List.countP_eq_length_filter, hl]; rfl
  cases hu : (uploadToS3 f opts c.upload d1).out with
  | error v =>
    simp only [finishBackup, hdir, henc, hu]
    simp [List.countP_cons, Event.isRemove, hl0]
  | ok oe =>
    cases oe with
    | none => exact absurd hu hup
    | some err =>
      simp only [finishBackup, hdir, henc, hu]
      simp [List.countP_cons, Event.isRemove, hl0]

theorem startBackup_filter (opts : _opts) (c : CycleEnv) (d : Disk) (T0 : Int) (k : Nat)
    (h : ChangesAt c T0 k) (p : Event → Bool) (hlog : ∀ m, p (.log m) = false)
    (hsl : ∀ x, p (.sleep x) = false) (hls : p .lastSave = false) (hbg : p .bgSave = false) :
    (startBackup opts c d).events.filter p = (finishBackup opts c d).events.filter p := by
  obtain ⟨s, hs⟩ := h.2.2.2.1
  rw [startBackup_changes opts c d T0 k s h hs]
  have hd : (doneLog opts (finishBackup opts c d).out).filter p = [] := by
    cases (finishBackup opts c d).out <;> simp [doneLog, hlog]
  simp [cycleStart, List.filter_cons, hlog, hls, hbg, filter_backoff p hsl hls, hd]

theorem loopBody_master (opts : _opts) (w : IterEnv) (d : Disk) (v : GoString)
    (hinfo : w.info = .ok v) (hm : roleMaster <:+: v) :
    loopBody opts w d =
      match (startBackup opts w.cycle d).out with
      | some x => ⟨.info :: (startBackup opts w.cycle d).events,
          (startBackup opts w.cycle d).disk, some x⟩
      | none => ⟨.info :: (startBackup opts w.cycle d).events ++ [.sleep opts.frequency],
          (startBackup opts w.cycle d).disk, none⟩ := by
  simp only [loopBody, hinfo, isMaster_ok, decide_eq_true hm]

theorem loopBody_not_master (opts : _opts) (w : IterEnv) (d : Disk) (v : GoString)
    (hinfo : w.info = .ok v) (hm : ¬ roleMaster <:+: v) :
    loopBody opts w d =
      ⟨[.info, .log "not a master node, skipping operation".toList, .sleep opts.frequency],
        d, none⟩ := by
  simp only [loopBody, hinfo, isMaster_ok, decide_eq_false hm]

/-! ## The loop and its entries -/

theorem startBackup_iter (opts : _opts) (c : CycleEnv) (d : Disk) :
    (startBackup opts c d).events.all Event.isIter = true := by
  cases hl : c.lastSave with
  | error err =>
    simp only [startBackup, hl]
    rfl
  | ok last =>
    cases hb : c.bgSave with
    | error err =>
      simp only [startBackup, hl, hb]
      rfl
    | ok s =>
      have hr := (pollLoop_reads opts c last 5 0 opts.RetryWaitTimeInSeconds d).2
      cases ho : (pollLoop opts c last 5 0 opts.RetryWaitTimeInSeconds d).out with
      | some v =>
        simp only [startBackup, hl, hb, ho, List.all_append, hr]
        rfl
      | none =>
        simp only [startBackup, hl, hb, ho, List.all_append, hr]
        rfl

theorem loopBody_iter (opts : _opts) (w : IterEnv) (d : Disk) :
    (loopBody opts w d).events.all Event.isIter = true := by
  have hs := startBackup_iter opts w.cycle d
  rcases hi : isMaster w.info with ⟨yes, _ | err⟩
  · cases yes with
    | false =>
      simp only [loopBody, hi]
      rfl
    | true =>
      cases ho : (startBackup opts w.cycle d).out with
      | none =>
        simp only [loopBody, hi, ho, List.all_cons, List.all_append, hs]
        rfl
      | some v =>
        simp only [loopBody, hi, ho, List.all_cons, hs]
        rfl
  · simp only [loopBody, hi]
    rfl

theorem forLoop_iter (opts : _opts) (w : LoopEnv) :
    ∀ (fuel n : Nat) (d : Disk), (forLoop opts w fuel n d).events.all Event.isIter = true := by
  intro fuel
  induction fuel with
  | zero => intro n d; rfl
  | succ f ih =>
    intro n d
    have hb := loopBody_iter opts (w.iter n) d
    cases ho : (loopBody opts (w.iter n) d).out with
    | some v => simp only [forLoop, ho, hb]
    | none => simp only [forLoop, ho, List.all_append, hb, ih, Bool.and_self]

theorem entries_of_iter (es : List Event) (h : es.all Event.isIter = true) :
    entries es = 0 := by
  unfold entries
  rw [List.countP_eq_zero]
  intro e he
  rw [List.all_eq_true] at h
  have := h e he
  cases e <;> simp_all [Event.isIter, Event.isFinish, Event.isLog, Event.isConfigGet,
    Event.isPipeline, Event.isEncrypt, Event.isUpload, Event.isRemove, Event.isLastSave,
    Event.isSleep, Event.isBgSave, Event.isInfo, Event.isConnect]

theorem entries_append (a b : List Event) : entries (a ++ b) = entries a + entries b := by
  simp [entries]

/-- Every call of `startLoop` opens exactly one connection. -/
theorem startLoop_entries (opts : _opts) (w : LoopEnv) (fuel : Nat) (d : Disk) :
    entries (startLoop opts w fuel d).events = 1 := by
  have hf := entries_of_iter _ (forLoop_iter opts w fuel 0 d)
  cases hc : w.connect with
  | some err =>
    simp only [startLoop, connect, hc]
    rfl
  | none =>
    cases ho : (forLoop opts w fuel 0 d).out with
    | none =>
      simp only [startLoop, connect, hc, ho, entries_append, hf]
      rfl
    | some v =>
      simp only [startLoop, connect, hc, ho, entries_append, hf]
      rfl

/-- A loop that has panicked within `fuel` iterations does the same with
more fuel. -/
theorem forLoop_stable (opts : _opts) (w : LoopEnv) (k : Nat) :
    ∀ (fuel n : Nat) (d : Disk) (v : PanicVal), (forLoop opts w fuel n d).out = some v →
      forLoop opts w (fuel + k) n d = forLoop opts w fuel n d := by
  intro fuel
  induction fuel with
  | zero => intro n d v h; simp [forLoop] at h
  | succ f ih =>
    intro n d v h
    rw [show f + 1 + k = (f + k) + 1 by omega]
    cases ho : (loopBody opts (w.iter n) d).out with
    | some x => simp only [forLoop, ho]
    | none =>
      simp only [forLoop, ho] at h ⊢
      rw [ih _ _ v h]

theorem startLoop_stable (opts : _opts) (w : LoopEnv) (fuel k : Nat) (d : Disk)
    (v : PanicVal) (h : (startLoop opts w fuel d).out = some v) :
    startLoop opts w (fuel + k) d = startLoop opts w fuel d := by
  cases hc : w.connect with
  | some err => simp only [startLoop, connect, hc]
  | none =>
    cases ho : (forLoop opts w fuel 0 d).out with
    | none => simp [startLoop, connect, hc, ho] at h
    | some x => simp only [startLoop, connect, hc, forLoop_stable opts w k fuel 0 d x ho]

/-! ## The four ways `main` can go once the configuration is parsed -/

theorem main_first_running (w : MainEnv) (n : Nat) (d : Disk) (parsed : _opts) (freq : Int)
    (hp : w.envParse = .ok parsed) (hf : w.parseDuration parsed.Frequency = .ok freq)
    (h : (startLoop (configured parsed freq) w.first n d).out = none) :
    main w n d = ⟨(startLoop (configured parsed freq) w.first n d).events,
      (startLoop (configured parsed freq) w.first n d).disk, .running⟩ := by
  simp only [configured] at h ⊢
  simp only [main, hp, hf, h]

theorem main_first_string (w : MainEnv) (n : Nat) (d : Disk) (parsed : _opts) (freq : Int)
    (s : GoString)
    (hp : w.envParse = .ok parsed) (hf : w.parseDuration parsed.Frequency = .ok freq)
    (h : (startLoop (configured parsed freq) w.first n d).out = some (.string s)) :
    main w n d = ⟨(startLoop (configured parsed freq) w.first n d).events,
      (startLoop (configured parsed freq) w.first n d).disk, .crashed (.string s)⟩ := by
  simp only [configured] at h ⊢
  simp only [main, hp, hf, h]

theorem main_first_other (w : MainEnv) (n : Nat) (d : Disk) (parsed : _opts) (freq : Int)
    (err : Err)
    (hp : w.envParse = .ok parsed) (hf : w.parseDuration parsed.Frequency = .ok freq)
    (h : (startLoop (configured parsed freq) w.first n d).out = some (.error err))
    (hc : ¬ badStateEOF <:+: err) :
    main w n d = ⟨(startLoop (configured parsed freq) w.first n d).events,
      (startLoop (configured parsed freq) w.first n d).disk, .crashed (.error err)⟩ := by
  have hc2 : Contains err badStateEOF = false := by
    cases hx : Contains err badStateEOF with
    | false => rfl
    | true => exact absurd ((Contains_iff err badStateEOF).mp hx) hc
  simp only [configured] at h ⊢
  simp only [main, hp, hf, h, hc2, Bool.false_eq_true, if_false]

theorem main_resumed (w : MainEnv) (n : Nat) (d : Disk) (parsed : _opts) (freq : Int)
    (err : Err)
    (hp : w.envParse = .ok parsed) (hf : w.parseDuration parsed.Frequency = .ok freq)
    (h : (startLoop (configured parsed freq) w.first n d).out = some (.error err))
    (hc : badStateEOF <:+: err) :
    main w n d =
      ⟨(startLoop (configured parsed freq) w.first n d).events ++
          [.log "connection closed, reconnecting...".toList] ++
          (startLoop (configured parsed freq) w.second n
            (startLoop (configured parsed freq) w.first n d).disk).events,
        (startLoop (configured parsed freq) w.second n
          (startLoop (configured parsed freq) w.first n d).disk).disk,
        match (startLoop (configured parsed freq) w.second n
          (startLoop (configured parsed freq) w.first n d).disk).out with
        | none => .running
        | some v => .crashed v⟩ := by
  have hc2 : Contains err badStateEOF = true := (Contains_iff err badStateEOF).mpr hc
  simp only [configured] at h ⊢
  simp only [main, hp, hf, h, hc2, if_true]
  split <;> rfl

/-! ## Claim C1 -/

/-- C1: `isMaster` equals the reference definition for every outcome of the
`INFO` query: a failed query with error `e` gives `(false, e)`, a
successful one with report `v` gives `(true, nil)` when `v` contains
`role:master` and `(false, nil)` otherwise; in particular the line-by-line
scan over `strings.Split(v, "\n")` is true iff `v` as a whole contains the
marker. -/
theorem isMaster_eq_isMasterRef :
    (∀ info : Except Err GoString, isMaster info = isMasterRef info) ∧
    (∀ e : Err, isMaster (.error e) = (false, some e)) ∧
    (∀ v : GoString,
      isMaster (.ok v) = (true, none) ↔ roleMaster <:+: v) ∧
    (∀ v : GoString,
      isMaster (.ok v) = (false, none) ↔ ¬ roleMaster <:+: v) ∧
    (∀ v : GoString,
      scanLines (Split v "\n".toList) = true ↔ roleMaster <:+: v) := by
  refine ⟨?_, ?_, ?_, ?_, scanLines_Split_iff⟩
  · intro info
    cases info with
    | error e => rfl
    | ok v => rw [isMaster_ok]; rfl
  · intro e; rfl
  · intro v
    rw [isMaster_ok]
    simp
  · intro v
    rw [isMaster_ok]
    simp

/-! ## Claim C2 -/

/-- C2: in every iteration of the loop of `startLoop` in which the role
query succeeds and the report does not contain `role:master`, the
iteration makes, after the query, one log line and one sleep of exactly
the configured interval and nothing else: no `LASTSAVE`, no `BGSAVE`, no
encrypt call, no upload call; the local state is untouched and the loop
goes on to the next leadership check. -/
theorem follower_iteration_only_sleeps (opts : _opts) (w : IterEnv) (d : Disk)
    (v : GoString) (hinfo : w.info = .ok v) (hm : ¬ roleMaster <:+: v) :
    (loopBody opts w d).events =
      [.info, .log "not a master node, skipping operation".toList, .sleep opts.frequency] ∧
    (loopBody opts w d).events.countP Event.isLastSave = 0 ∧
    (loopBody opts w d).events.countP Event.isBgSave = 0 ∧
    (loopBody opts w d).events.countP Event.isEncrypt = 0 ∧
    (loopBody opts w d).events.countP Event.isUpload = 0 ∧
    sleepsOf (loopBody opts w d).events = [opts.frequency] ∧
    (loopBody opts w d).events.filter (fun e => !e.isInfo && !e.isLog)
      = [.sleep opts.frequency] ∧
    (loopBody opts w d).disk = d ∧
    (loopBody opts w d).out = none := by
  rw [loopBody_not_master opts w d v hinfo hm]
  exact ⟨rfl, rfl, rfl, rfl, rfl, rfl, rfl, rfl, rfl⟩

/-- Witness of C2: a node that reports `role:slave`. -/
theorem follower_iteration_only_sleeps_witness :
    ¬ roleMaster <:+: "# Replication\r\nrole:slave\r\nmaster_host:10.0.0.1".toList ∧
    (loopBody sampleOpts
        ⟨.ok "# Replication\r\nrole:slave\r\nmaster_host:10.0.0.1".toList, sampleCycle 1⟩
        emptyDisk).events =
      [.info, .log "not a master node, skipping operation".toList, .sleep (3600 * Second)] :=
  ⟨by decide,
    (follower_iteration_only_sleeps sampleOpts
      ⟨.ok "# Replication\r\nrole:slave\r\nmaster_host:10.0.0.1".toList, sampleCycle 1⟩
      emptyDisk _ rfl (by decide)).1⟩

/-! ## Claim C3 -/

/-- C3 as stated fails.  The node is primary, the save timestamp changes on
attempt 1, and the working-directory read, `encrypt` and `uploadToS3` all
succeed; but `os.Remove` fails.  The iteration then logs the failure, ends
normally and sleeps for the interval, and the artifact has not been deleted:
it is still on disk. -/
theorem primary_cycle_keeps_artifact :
    roleMaster <:+: "role:master".toList ∧
    ChangesAt keepCycle 100 1 ∧
    keepCycle.configGet = .ok [("dir".toList, "/data".toList)] ∧
    encrypt sampleOpts.PublicKey (mapIndex [("dir".toList, "/data".toList)] "dir".toList ++
        "/dump.rdb".toList) keepCycle.encrypt emptyDisk
      = ((sampleAgefile, none), ⟨[sampleAgefile], [⟨"/data/dump.rdb".toList, false⟩]⟩) ∧
    (uploadToS3 sampleAgefile sampleOpts keepCycle.upload
      ⟨[sampleAgefile], [⟨"/data/dump.rdb".toList, false⟩]⟩).out = .ok none ∧
    (loopBody sampleOpts ⟨.ok "role:master".toList, keepCycle⟩ emptyDisk).out = none ∧
    Event.log ("failed to delete encrypted backup file ".toList ++ sampleAgefile) ∈
      (loopBody sampleOpts ⟨.ok "role:master".toList, keepCycle⟩ emptyDisk).events ∧
    sampleAgefile ∈
      (loopBody sampleOpts ⟨.ok "role:master".toList, keepCycle⟩ emptyDisk).disk.files :=
  ⟨by decide, ⟨by decide, by decide, rfl, ⟨_, rfl⟩, fun j hj => absurd hj (by omega),
      ⟨200, rfl, by decide⟩⟩,
    rfl, by decide, rfl, by decide, by decide, by decide⟩

/-- C3, amended: for every `k` with `1 ≤ k ≤ 5` and every base wait: if the
node is primary, the first `k - 1` poll reads return the timestamp `T0`
read before the trigger and the `k`-th read differs from it, and the
working-directory read, `encrypt` and `uploadToS3` all succeed, then the
cycle ends normally after exactly one `BGSAVE`, exactly `k - 1` backoff
sleeps, and exactly one encrypt call, one upload call and one call of
`os.Remove` on the artifact, in this order; the artifact is on disk after
`encrypt`, is no longer on disk at the end of the iteration when that
`os.Remove` succeeds, and is still there when it fails; and the iteration
of `startLoop` is the role query, this cycle, and then one sleep of the
configured interval. -/
theorem primary_cycle_succeeds (opts : _opts) (w : IterEnv) (d d1 : Disk) (v : GoString)
    (T0 : Int) (k : Nat) (dir : List (GoString × GoString)) (f : GoString)
    (hinfo : w.info = .ok v) (hm : roleMaster <:+: v)
    (hk : ChangesAt w.cycle T0 k)
    (hdir : w.cycle.configGet = .ok dir)
    (henc : encrypt opts.PublicKey (mapIndex dir "dir".toList ++ "/dump.rdb".toList)
      w.cycle.encrypt d = ((f, none), d1))
    (hup : (uploadToS3 f opts w.cycle.upload d1).out = .ok none) :
    (startBackup opts w.cycle d).out = none ∧
    (startBackup opts w.cycle d).events.countP Event.isBgSave = 1 ∧
    (sleepsOf (startBackup opts w.cycle d).events).length = k - 1 ∧
    (startBackup opts w.cycle d).events.filter Event.isPipeline =
      [.encrypt opts.PublicKey (mapIndex dir "dir".toList ++ "/dump.rdb".toList),
        .uploadToS3 f, .remove f] ∧
    (loopBody opts w d).events =
      .info :: (startBackup opts w.cycle d).events ++ [.sleep opts.frequency] ∧
    (loopBody opts w d).out = none ∧
    f ∈ d1.files ∧
    (w.cycle.remove = none → f ∉ (loopBody opts w d).disk.files) ∧
    (w.cycle.remove ≠ none → f ∈ (loopBody opts w d).disk.files) := by
  obtain ⟨s, hs⟩ := hk.2.2.2.1
  have hF := finishBackup_uploaded opts w.cycle d d1 dir f hdir henc hup
  have hmem := encrypt_ok_artifact _ _ _ _ _ _ henc
  have hsb := startBackup_changes opts w.cycle d T0 k s hk hs
  have hout : (startBackup opts w.cycle d).out = none := by
    rw [hsb, hF]
  have hdisk : (loopBody opts w d).disk =
      (osRemove w.cycle.remove f (uploadToS3 f opts w.cycle.upload d1).disk).2 := by
    rw [loopBody_master opts w d v hinfo hm, hout]
    simp only [hsb, hF]
  have hbg : (startBackup opts w.cycle d).events.countP Event.isBgSave = 1 := by
    rw [hsb]
    have ht := countP_of_finish Event.isBgSave
      (fun e he => by cases e <;> simp_all [Event.isFinish, Event.isLog,
        Event.isConfigGet, Event.isPipeline, Event.isEncrypt, Event.isUpload,
        Event.isRemove, Event.isBgSave]) _ (tail_all opts w.cycle d)
    simp [cycleStart, List.countP_cons, Event.isBgSave,
      countP_backoff Event.isBgSave (fun _ => rfl), ht]
  have hsl : (sleepsOf (startBackup opts w.cycle d).events).length = k - 1 := by
    rw [hsb]
    have ht : sleepsOf (Event.lastSave :: ((finishBackup opts w.cycle d).events ++
        doneLog opts (finishBackup opts w.cycle d).out)) = [] := by
      have := sleepsOf_of_finish _ (tail_all opts w.cycle d)
      simpa [sleepsOf, Event.sleepDuration] using this
    simp only [sleepsOf_append, sleepsOf_cycleStart, List.nil_append, ht, List.append_nil,
      sleepsOf_backoff, List.length_map, List.length_range]
  have hpipe : (startBackup opts w.cycle d).events.filter Event.isPipeline =
      [.encrypt opts.PublicKey (mapIndex dir "dir".toList ++ "/dump.rdb".toList),
        .uploadToS3 f, .remove f] := by
    rw [startBackup_filter opts w.cycle d T0 k hk Event.isPipeline (fun _ => rfl)
      (fun _ => rfl) rfl rfl, hF]
    have hl := uploadToS3_logs f opts w.cycle.upload d1 Event.isPipeline (fun _ => rfl)
    cases hr : w.cycle.remove <;>
      simp [List.filter_cons, hl, Event.isPipeline, Event.isEncrypt, Event.isUpload,
        Event.isRemove]
  refine ⟨hout, hbg, hsl, hpipe, ?_, ?_, hmem, ?_, ?_⟩
  · rw [loopBody_master opts w d v hinfo hm, hout]
  · rw [loopBody_master opts w d v hinfo hm, hout]
  · intro hr
    rw [hdisk]
    simp [osRemove, hr]
  · intro hr
    rw [hdisk]
    cases hr2 : w.cycle.remove with
    | none => exact absurd hr2 hr
    | some err =>
      simp only [osRemove]
      rw [uploadToS3_files]
      exact hmem

/-- Witness of the amended C3, the scenario of the specification: interval
1h, base wait 10, change on attempt 2 gives one trigger, one sleep of 10 s,
one encrypt, one upload, the artifact deleted (its `os.Remove` succeeds),
and a sleep of one hour. -/
theorem primary_cycle_succeeds_witness :
    ChangesAt (sampleCycle 2) 100 2 ∧
    (startBackup sampleOpts (sampleCycle 2) emptyDisk).events.countP Event.isBgSave = 1 ∧
    (sleepsOf (startBackup sampleOpts (sampleCycle 2) emptyDisk).events).length = 2 - 1 ∧
    (startBackup sampleOpts (sampleCycle 2) emptyDisk).events.filter Event.isPipeline =
      [.encrypt "age1sample".toList "/data/dump.rdb".toList,
        .uploadToS3 sampleAgefile, .remove sampleAgefile] ∧
    sampleAgefile ∉
      (loopBody sampleOpts ⟨.ok "role:master".toList, sampleCycle 2⟩ emptyDisk).disk.files ∧
    sleepsOf (loopBody sampleOpts ⟨.ok "role:master".toList, sampleCycle 2⟩ emptyDisk).events
      = [10 * Second, 3600 * Second] :=
  have h := primary_cycle_succeeds sampleOpts ⟨.ok "role:master".toList, sampleCycle 2⟩
    emptyDisk ⟨[sampleAgefile], [⟨"/data/dump.rdb".toList, false⟩]⟩ "role:master".toList
    100 2 [("dir".toList, "/data".toList)] sampleAgefile rfl (by decide)
    (sampleCycle_changesAt 2 (by decide) (by decide)) rfl (by decide) rfl
  ⟨sampleCycle_changesAt 2 (by decide) (by decide), h.2.1, h.2.2.1, h.2.2.2.1,
    h.2.2.2.2.2.2.2.1 rfl, by decide⟩

/-! ## Claim C4 -/

/-- C4: in a backup cycle in which all 5 poll reads of the save timestamp
succeed and equal the timestamp `T0` read before the trigger,
`startBackup` panics with the "timed out waiting for bgsave to complete"
value on the 5th attempt; the cycle has issued exactly one save trigger,
and makes no working-directory read, no encrypt call, no upload call and
no file deletion. -/
theorem timed_out_after_five_polls (opts : _opts) (c : CycleEnv) (d : Disk) (T0 : Int)
    (h : NeverChanges c T0) :
    (startBackup opts c d).out = some (.string timedOut) ∧
    "timed out waiting for bgsave to complete".toList <+: timedOut ∧
    pollReads (startBackup opts c d).events = 5 ∧
    (startBackup opts c d).events.getLast? = some .lastSave ∧
    (startBackup opts c d).events.countP Event.isBgSave = 1 ∧
    (startBackup opts c d).events.countP Event.isConfigGet = 0 ∧
    (startBackup opts c d).events.countP Event.isEncrypt = 0 ∧
    (startBackup opts c d).events.countP Event.isUpload = 0 ∧
    (startBackup opts c d).events.countP Event.isRemove = 0 ∧
    (startBackup opts c d).disk = d := by
  obtain ⟨s, hs⟩ := h.2.1
  rw [startBackup_never opts c d T0 s h hs]
  refine ⟨rfl, by decide, ?_, ?_, ?_, ?_, ?_, ?_, ?_, rfl⟩
  · simp [pollReads, cycleStart, Event.isBgSave, Event.isLastSave, List.countP_cons,
      countP_backoff Event.isLastSave (fun _ => rfl)]
  · simp
  · simp [cycleStart, Event.isBgSave, List.countP_cons,
      countP_backoff Event.isBgSave (fun _ => rfl)]
  · simp [cycleStart, Event.isConfigGet, List.countP_cons,
      countP_backoff Event.isConfigGet (fun _ => rfl)]
  · simp [cycleStart, Event.isEncrypt, List.countP_cons,
      countP_backoff Event.isEncrypt (fun _ => rfl)]
  · simp [cycleStart, Event.isUpload, List.countP_cons,
      countP_backoff Event.isUpload (fun _ => rfl)]
  · simp [cycleStart, Event.isRemove, List.countP_cons,
      countP_backoff Event.isRemove (fun _ => rfl)]

/-- Witness of C4: the sample cycle whose timestamp stays at 100. -/
theorem timed_out_after_five_polls_witness :
    NeverChanges stuckCycle 100 ∧
    (startBackup sampleOpts stuckCycle emptyDisk).out = some (.string timedOut) ∧
    pollReads (startBackup sampleOpts stuckCycle emptyDisk).events = 5 :=
  ⟨stuckCycle_neverChanges,
    (timed_out_after_five_polls sampleOpts stuckCycle emptyDisk 100 stuckCycle_neverChanges).1,
    (timed_out_after_five_polls sampleOpts stuckCycle emptyDisk 100
      stuckCycle_neverChanges).2.2.1⟩

/-! ## Claim C5 -/

/-- C5 as stated fails.  With base wait 10 and a timestamp that changes on
attempt 2, the wait slept before attempt 2 is 10 seconds, not
`10 * 2^(2-1)` seconds.  And with the positive base wait 9223372037 the
number of nanoseconds wraps around in `int64`: the duration given to
`time.Sleep` before attempt 2 is negative. -/
theorem backoff_wait_formula_fails :
    (0 < sampleOpts.RetryWaitTimeInSeconds ∧ ChangesAt (sampleCycle 2) 100 2 ∧
      waitBefore (startBackup sampleOpts (sampleCycle 2) emptyDisk).events 2
        = some (10 * Second) ∧
      waitBefore (startBackup sampleOpts (sampleCycle 2) emptyDisk).events 2
        ≠ some (sampleOpts.RetryWaitTimeInSeconds * 2 ^ (2 - 1) * Second)) ∧
    (0 < hugeWaitOpts.RetryWaitTimeInSeconds ∧
      waitBefore (startBackup hugeWaitOpts (sampleCycle 2) emptyDisk).events 2
        = some (-9223372036709551616) ∧
      waitBefore (startBackup hugeWaitOpts (sampleCycle 2) emptyDisk).events 2
        ≠ some (hugeWaitOpts.RetryWaitTimeInSeconds * 2 ^ (2 - 1) * Second)) := by
  refine ⟨⟨by decide, sampleCycle_changesAt 2 (by decide) (by decide), ?_, ?_⟩,
    ⟨by decide, ?_, ?_⟩⟩ <;> decide

/-- C5, amended: for every positive base wait and every backup cycle whose
save timestamp first changes on poll attempt `k ≤ 5` (attempts numbered
from 1), the backoff wait that `startBackup` sleeps before attempt `i`,
for `2 ≤ i ≤ k`, is `base * 2^(i-2)` seconds, as long as that many
nanoseconds fit an `int64`. -/
theorem backoff_wait_before_attempt (opts : _opts) (c : CycleEnv) (d : Disk) (T0 : Int)
    (k i : Nat) (hpos : 0 < opts.RetryWaitTimeInSeconds) (h : ChangesAt c T0 k)
    (hi2 : 2 ≤ i) (hik : i ≤ k)
    (hfit : opts.RetryWaitTimeInSeconds * 2 ^ (i - 2) * Second < 2 ^ 63) :
    waitBefore (startBackup opts c d).events i
      = some (opts.RetryWaitTimeInSeconds * 2 ^ (i - 2) * Second) := by
  rw [waitBefore_changes opts c d T0 k i h hi2 hik,
    sleep_eq opts.RetryWaitTimeInSeconds (le_of_lt hpos) (i - 2) hfit]

/-- Witness of the amended C5: base wait 10, change on attempt 3, the wait
before attempt 3 is 20 seconds. -/
theorem backoff_wait_before_attempt_witness :
    0 < sampleOpts.RetryWaitTimeInSeconds ∧ ChangesAt (sampleCycle 3) 100 3 ∧
    sampleOpts.RetryWaitTimeInSeconds * 2 ^ (3 - 2) * Second < 2 ^ 63 ∧
    waitBefore (startBackup sampleOpts (sampleCycle 3) emptyDisk).events 3
      = some (sampleOpts.RetryWaitTimeInSeconds * 2 ^ (3 - 2) * Second) :=
  ⟨by decide, sampleCycle_changesAt 3 (by decide) (by decide), by decide,
    backoff_wait_before_attempt sampleOpts (sampleCycle 3) emptyDisk 100 3 3 (by decide)
      (sampleCycle_changesAt 3 (by decide) (by decide)) (by decide) (by decide) (by decide)⟩

/-! ## Claim C6 -/

/-- C6: in every run of `main` whose configuration parsed, a connection is
opened (the loop is entered) at most twice.  It is opened a second time
exactly when the first `startLoop` panics with an `error` whose message
contains `bad state: EOF`.  A panic of the first `startLoop` with any other
value (an `error` without the signature, or a value that is no `error`,
such as the poll time-out string) ends the process with that value after
one connection; a panic of the resumed `startLoop` ends the process with
its value after two.  A run that has ended this way is the same for every
larger bound on the iterations. -/
theorem main_reconnects_at_most_once (w : MainEnv) (fuel : Nat) (d : Disk)
    (parsed : _opts) (freq : Int) (hp : w.envParse = .ok parsed)
    (hf : w.parseDuration parsed.Frequency = .ok freq) :
    entries (main w fuel d).events ≤ 2 ∧
    (entries (main w fuel d).events = 2 ↔
      ∃ err, (startLoop (configured parsed freq) w.first fuel d).out = some (.error err) ∧
        badStateEOF <:+: err) ∧
    (∀ v, (startLoop (configured parsed freq) w.first fuel d).out = some v →
      (∀ err, v = .error err → ¬ badStateEOF <:+: err) →
      (main w fuel d).out = .crashed v ∧ entries (main w fuel d).events = 1) ∧
    (∀ err v2, (startLoop (configured parsed freq) w.first fuel d).out = some (.error err) →
      badStateEOF <:+: err →
      (startLoop (configured parsed freq) w.second fuel
        (startLoop (configured parsed freq) w.first fuel d).disk).out = some v2 →
      (main w fuel d).out = .crashed v2 ∧ entries (main w fuel d).events = 2) ∧
    (∀ v, (main w fuel d).out = .crashed v → ∀ k, main w (fuel + k) d = main w fuel d) := by
  have e1 := startLoop_entries (configured parsed freq) w.first fuel d
  have e2 := startLoop_entries (configured parsed freq) w.second fuel
    (startLoop (configured parsed freq) w.first fuel d).disk
  have hlog : entries [Event.log "connection closed, reconnecting...".toList] = 0 := rfl
  cases h1 : (startLoop (configured parsed freq) w.first fuel d).out with
  | none =>
    rw [main_first_running w fuel d parsed freq hp hf h1]
    simp [e1]
  | some v =>
    have st1 := fun k => startLoop_stable (configured parsed freq) w.first fuel k d v h1
    cases v with
    | string s =>
      have hm := main_first_string w fuel d parsed freq s hp hf h1
      have hk : ∀ k, main w (fuel + k) d = main w fuel d := by
        intro k
        rw [hm, main_first_string w (fuel + k) d parsed freq s hp hf
          (by rw [st1 k]; exact h1), st1 k]
      refine ⟨?_, ?_, ?_, ?_, fun _ _ => hk⟩
      · rw [hm]; simp only [e1]; omega
      · rw [hm]; simp [e1]
      · intro v hv _
        rw [hm]
        simp only [Option.some.injEq] at hv
        exact ⟨by rw [hv], e1⟩
      · intro err v2 he
        simp at he
    | error err =>
      by_cases hin : badStateEOF <:+: err
      · have hm := main_resumed w fuel d parsed freq err hp hf h1 hin
        have hent : entries (main w fuel d).events = 2 := by
          rw [hm]
          simp only [entries_append, e1, e2, hlog]
        refine ⟨by omega, ?_, ?_, ?_, ?_⟩
        · simp only [hent, true_iff]
          exact ⟨err, rfl, hin⟩
        · intro v hv hno
          simp only [Option.some.injEq] at hv
          exact absurd hin (hno err hv.symm)
        · intro err2 v2 he _ h2
          refine ⟨?_, hent⟩
          rw [hm, h2]
        · intro v hv k
          rw [hm] at hv
          cases h2 : (startLoop (configured parsed freq) w.second fuel
              (startLoop (configured parsed freq) w.first fuel d).disk).out with
          | none => simp [h2] at hv
          | some v2 =>
            have st2 := startLoop_stable (configured parsed freq) w.second fuel k
              (startLoop (configured parsed freq) w.first fuel d).disk v2 h2
            rw [hm, main_resumed w (fuel + k) d parsed freq err hp hf
              (by rw [st1 k]; exact h1) hin, st1 k, st2]
      · have hm := main_first_other w fuel d parsed freq err hp hf h1 hin
        have hk : ∀ k, main w (fuel + k) d = main w fuel d := by
          intro k
          rw [hm, main_first_other w (fuel + k) d parsed freq err hp hf
            (by rw [st1 k]; exact h1) hin, st1 k]
        refine ⟨?_, ?_, ?_, ?_, fun _ _ => hk⟩
        · rw [hm]; simp only [e1]; omega
        · rw [hm]
          simp only [e1]
          constructor
          · intro h; omega
          · rintro ⟨err2, he, hin2⟩
            simp only [Option.some.injEq, PanicVal.error.injEq] at he
            exact absurd (he ▸ hin2) hin
        · intro v hv _
          rw [hm]
          simp only [Option.some.injEq] at hv
          exact ⟨by rw [hv], e1⟩
        · intro err2 v2 he hin2
          simp only [Option.some.injEq, PanicVal.error.injEq] at he
          exact absurd (he ▸ hin2) hin

/-- Witness of C6: the connection is lost at the third role query
(`redis: bad state: EOF`), `main` reconnects, and the resumed loop ends the
process with the poll time-out after two connections in all. -/
theorem main_reconnects_at_most_once_witness :
    entries (main (sampleMain sampleOpts lostLoop stuckLoop) 5 emptyDisk).events ≤ 2 ∧
    (main (sampleMain sampleOpts lostLoop stuckLoop) 5 emptyDisk).out
      = .crashed (.string timedOut) ∧
    entries (main (sampleMain sampleOpts lostLoop stuckLoop) 5 emptyDisk).events = 2 :=
  have h := main_reconnects_at_most_once (sampleMain sampleOpts lostLoop stuckLoop) 5
    emptyDisk sampleOpts (3600 * Second) rfl rfl
  ⟨h.1,
    h.2.2.2.1 "redis: bad state: EOF".toList (.string timedOut) (by decide) (by decide)
      (by decide)⟩

/-! ## Claim C7 -/

/-- C7 as stated fails: when `os.Remove` fails after a successful upload,
the failure is only logged, the cycle ends normally and the artifact is
still on disk. -/
theorem artifact_survives_failed_deletion :
    encrypt sampleOpts.PublicKey "/data/dump.rdb".toList keepCycle.encrypt emptyDisk
      = ((sampleAgefile, none), ⟨[sampleAgefile], [⟨"/data/dump.rdb".toList, false⟩]⟩) ∧
    (uploadToS3 sampleAgefile sampleOpts keepCycle.upload
      ⟨[sampleAgefile], [⟨"/data/dump.rdb".toList, false⟩]⟩).out = .ok none ∧
    (startBackup sampleOpts keepCycle emptyDisk).out = none ∧
    sampleAgefile ∈ (startBackup sampleOpts keepCycle emptyDisk).disk.files :=
  ⟨by decide, rfl, by decide, by decide⟩

/-- C7, amended: in every backup cycle that reaches the upload step, the
artifact `f` is on local disk at that point.  If the upload succeeds, the
cycle attempts the deletion of `f` exactly once and ends normally; `f` no
longer exists at the end when that deletion succeeds, and is still there
when it fails.  If the upload fails, no deletion of `f` is attempted, the
cycle is abandoned with a panic, and `f` still exists. -/
theorem artifact_after_upload (opts : _opts) (c : CycleEnv) (d d1 : Disk) (T0 : Int)
    (k : Nat) (dir : List (GoString × GoString)) (f : GoString)
    (hk : ChangesAt c T0 k) (hdir : c.configGet = .ok dir)
    (henc : encrypt opts.PublicKey (mapIndex dir "dir".toList ++ "/dump.rdb".toList)
      c.encrypt d = ((f, none), d1)) :
    f ∈ d1.files ∧
    ((uploadToS3 f opts c.upload d1).out = .ok none →
      (startBackup opts c d).events.filter Event.isRemove = [.remove f] ∧
      (startBackup opts c d).out = none ∧
      (c.remove = none → f ∉ (startBackup opts c d).disk.files) ∧
      (c.remove ≠ none → f ∈ (startBackup opts c d).disk.files)) ∧
    ((uploadToS3 f opts c.upload d1).out ≠ .ok none →
      (startBackup opts c d).events.countP Event.isRemove = 0 ∧
      (startBackup opts c d).out ≠ none ∧
      f ∈ (startBackup opts c d).disk.files) := by
  obtain ⟨s, hs⟩ := hk.2.2.2.1
  have hmem := encrypt_ok_artifact _ _ _ _ _ _ henc
  have hfilt := startBackup_filter opts c d T0 k hk Event.isRemove (fun _ => rfl)
    (fun _ => rfl) rfl rfl
  have hsb := startBackup_changes opts c d T0 k s hk hs
  refine ⟨hmem, ?_, ?_⟩
  · intro hup
    have hF := finishBackup_uploaded opts c d d1 dir f hdir henc hup
    have hl := uploadToS3_logs f opts c.upload d1 Event.isRemove (fun _ => rfl)
    refine ⟨?_, ?_, ?_, ?_⟩
    · rw [hfilt, hF]
      cases hr : c.remove <;> simp [List.filter_cons, hl, Event.isRemove]
    · rw [hsb, hF]
    · intro hr
      rw [hsb, hF]
      simp [osRemove, hr]
    · intro hr
      rw [hsb, hF]
      cases hr2 : c.remove with
      | none => exact absurd hr2 hr
      | some err =>
        simp only [osRemove]
        rw [uploadToS3_files]
        exact hmem
  · intro hup
    obtain ⟨h0, hne, hdisk⟩ := finishBackup_upload_failed opts c d d1 dir f hdir henc hup
    refine ⟨?_, ?_, ?_⟩
    · rw [List.countP_eq_length_filter, hfilt, ← List.countP_eq_length_filter, h0]
    · rw [hsb]
      exact hne
    · rw [hsb]
      simp only [hdisk, uploadToS3_files]
      exact hmem

/-- Witness of the amended C7: the sample cycle, whose upload and deletion
succeed. -/
theorem artifact_after_upload_witness :
    ChangesAt (sampleCycle 1) 100 1 ∧
    (startBackup sampleOpts (sampleCycle 1) emptyDisk).events.filter Event.isRemove
      = [.remove sampleAgefile] ∧
    sampleAgefile ∉ (startBackup sampleOpts (sampleCycle 1) emptyDisk).disk.files :=
  have h := artifact_after_upload sampleOpts (sampleCycle 1) emptyDisk
    ⟨[sampleAgefile], [⟨"/data/dump.rdb".toList, false⟩]⟩ 100 1
    [("dir".toList, "/data".toList)] sampleAgefile
    (sampleCycle_changesAt 1 (by decide) (by decide)) rfl (by decide)
  ⟨sampleCycle_changesAt 1 (by decide) (by decide), (h.2.1 rfl).1, (h.2.1 rfl).2.2.1 rfl⟩

/-! ## Claim C8 -/

/-- C8 as stated fails: `main` checks neither the sign of the interval nor
the sign of the retry wait.  With the interval `-1h` (which parses, to a
negative duration), and likewise with the retry wait 0, startup goes on to
open the connection, and the loop runs. -/
theorem startup_accepts_non_positive_values :
    (sampleParseDuration "-1h".toList = .ok (-(3600 * Second)) ∧ -(3600 * Second) ≤ 0 ∧
      (main (sampleMain { sampleOpts with Frequency := "-1h".toList } followerLoop
          followerLoop) 1 emptyDisk).events
        = [.clientSetName, .info, .log "not a master node, skipping operation".toList,
            .sleep (-(3600 * Second))] ∧
      (main (sampleMain { sampleOpts with Frequency := "-1h".toList } followerLoop
          followerLoop) 1 emptyDisk).out = .running) ∧
    (({ sampleOpts with RetryWaitTimeInSeconds := 0 } : _opts).RetryWaitTimeInSeconds ≤ 0 ∧
      (main (sampleMain { sampleOpts with RetryWaitTimeInSeconds := 0 } followerLoop
          followerLoop) 1 emptyDisk).events
        = [.clientSetName, .info, .log "not a master node, skipping operation".toList,
            .sleep (3600 * Second)] ∧
      (main (sampleMain { sampleOpts with RetryWaitTimeInSeconds := 0 } followerLoop
          followerLoop) 1 emptyDisk).out = .running) :=
  ⟨⟨rfl, by decide, by decide, by decide⟩, ⟨by decide, by decide, by decide⟩⟩

/-- C8, amended: for every configuration whose backup interval is
unparseable, startup (`main`) fails, by `log.Fatalf`, before any network
call is attempted: the only event is the log line, and the exit status
is 1. -/
theorem startup_fails_on_unparseable_interval (w : MainEnv) (fuel : Nat) (d : Disk)
    (parsed : _opts) (err : Err) (hp : w.envParse = .ok parsed)
    (hf : w.parseDuration parsed.Frequency = .error err) :
    (main w fuel d).out = .exit 1 ∧
    (main w fuel d).events = [.log ("failed to parse backup frequency: ".toList ++ err)] ∧
    (main w fuel d).events.countP Event.isNetwork = 0 ∧
    (main w fuel d).disk = d := by
  have hm : main w fuel d =
      ⟨[.log ("failed to parse backup frequency: ".toList ++ err)], d, .exit 1⟩ := by
    simp only [main, hp, hf]
  rw [hm]
  exact ⟨rfl, rfl, rfl, rfl⟩

/-- Witness of the amended C8: the interval `soon` is no duration. -/
theorem startup_fails_on_unparseable_interval_witness :
    sampleParseDuration "soon".toList = .error (invalidDuration "soon".toList) ∧
    (main (sampleMain { sampleOpts with Frequency := "soon".toList } followerLoop
      followerLoop) 3 emptyDisk).out = .exit 1 ∧
    (main (sampleMain { sampleOpts with Frequency := "soon".toList } followerLoop
      followerLoop) 3 emptyDisk).events.countP Event.isNetwork = 0 :=
  have h := startup_fails_on_unparseable_interval
    (sampleMain { sampleOpts with Frequency := "soon".toList } followerLoop followerLoop)
    3 emptyDisk { sampleOpts with Frequency := "soon".toList }
    (invalidDuration "soon".toList) rfl rfl
  ⟨rfl, h.1, h.2.2.1⟩

/-- The same holds when `env.Parse` itself fails, as it does for a retry
wait that is no integer. -/
theorem startup_fails_on_env_error (w : MainEnv) (fuel : Nat) (d : Disk) (err : Err)
    (hp : w.envParse = .error err) :
    (main w fuel d).out = .exit 1 ∧
    (main w fuel d).events.countP Event.isNetwork = 0 := by
  have hm : main w fuel d =
      ⟨[.log ("failed to parse environment for environment variables: ".toList ++ err)],
        d, .exit 1⟩ := by
    simp only [main, hp]
  rw [hm]
  exact ⟨rfl, rfl⟩

/-! ## Claim C9 -/

/-- Whenever `encrypt` gets as far as opening the raw snapshot, the handle
`src` is still open when it returns, whatever happens afterwards: `dst` has
been closed by the deferred call, `src` by nobody. -/
theorem encrypt_source_left_open (key file : GoString) (w : EncryptEnv) (d : Disk)
    (h1 : w.parseRecipient key = none) (h2 : w.create = none) (h3 : w.ageEncrypt = none)
    (h4 : w.openSrc = none) :
    (encrypt key file w d).2.handles = ⟨file, false⟩ :: d.handles := by
  cases h5 : w.copy <;> simp [encrypt, h1, h2, h3, h4, h5]

/-- On every exit path of `encrypt` the destination file is closed again:
no handle open for writing is gained or lost. -/
theorem encrypt_closes_destination (key file : GoString) (w : EncryptEnv) (d : Disk)
    (h : Handle) (hw : h.writing = true) :
    (encrypt key file w d).2.handles.count h = d.handles.count h := by
  have hsrc : (⟨file, false⟩ : Handle) ≠ h := by
    intro hx
    rw [← hx] at hw
    simp at hw
  cases h1 : w.parseRecipient key <;> cases h2 : w.create <;> cases h3 : w.ageEncrypt <;>
    cases h4 : w.openSrc <;> cases h5 : w.copy <;>
    simp [encrypt, h1, h2, h3, h4, h5, List.count_cons, hsrc]

/-- The error returned by `encrypt` is the first one met, in the order key
parsing, file creation, transform setup, source opening, copy, and close
of the encrypting writer. -/
theorem encrypt_returns_first_error (key file : GoString) (w : EncryptEnv) (d : Disk) :
    (encrypt key file w d).1.2 =
      [w.parseRecipient key, w.create, w.ageEncrypt, w.openSrc, w.copy,
        w.closeWriter].findSome? id := by
  cases h1 : w.parseRecipient key <;> cases h2 : w.create <;> cases h3 : w.ageEncrypt <;>
    cases h4 : w.openSrc <;> cases h5 : w.copy <;> cases h6 : w.closeWriter <;>
    simp [encrypt, h1, h2, h3, h4, h5, h6, List.findSome?]

/-- C9, evaluated on a run of `encrypt` in which every call succeeds: the
artifact is written and `nil` returned, the destination file has been
closed, but the handle of the raw snapshot is still open on return. -/
theorem encrypt_leaves_source_open :
    encrypt sampleOpts.PublicKey "/data/dump.rdb".toList sampleEncryptEnv emptyDisk
      = ((sampleAgefile, none), ⟨[sampleAgefile], [⟨"/data/dump.rdb".toList, false⟩]⟩) ∧
    (⟨"/data/dump.rdb".toList, false⟩ : Handle) ∈
      (encrypt sampleOpts.PublicKey "/data/dump.rdb".toList sampleEncryptEnv
        emptyDisk).2.handles ∧
    (⟨sampleAgefile, true⟩ : Handle) ∉
      (encrypt sampleOpts.PublicKey "/data/dump.rdb".toList sampleEncryptEnv
        emptyDisk).2.handles := by
  decide

/-! ## Claim C10 -/

/-- C10: for every base wait `b ≥ 0` small enough not to overflow (the
longest wait, `8 * b` seconds, fits an `int64` of nanoseconds) and every
`k` with `1 ≤ k ≤ 5`, a backup cycle whose save timestamp first changes on
poll attempt `k` has slept `b * (2^(k-1) - 1)` seconds in all; a cycle that
exhausts all 5 attempts makes exactly 4 sleeps, of `15 * b` seconds in all,
and panics with the time-out; and no cycle reads the save timestamp more
than 5 times after the trigger. -/
theorem poll_loop_total_wait (opts : _opts) (c : CycleEnv) (d : Disk) (T0 : Int)
    (hb : 0 ≤ opts.RetryWaitTimeInSeconds)
    (hfit : opts.RetryWaitTimeInSeconds * 8 * Second < 2 ^ 63) :
    (∀ k, ChangesAt c T0 k →
      (sleepsOf (startBackup opts c d).events).sum
        = opts.RetryWaitTimeInSeconds * (2 ^ (k - 1) - 1) * Second) ∧
    (NeverChanges c T0 →
      (sleepsOf (startBackup opts c d).events).length = 4 ∧
      (sleepsOf (startBackup opts c d).events).sum
        = 15 * opts.RetryWaitTimeInSeconds * Second ∧
      (startBackup opts c d).out = some (.string timedOut)) ∧
    pollReads (startBackup opts c d).events ≤ 5 := by
  refine ⟨?_, ?_, startBackup_pollReads opts c d⟩
  · intro k h
    obtain ⟨s, hs⟩ := h.2.2.2.1
    have hk5 : k - 1 ≤ 4 := by have := h.2.1; omega
    rw [startBackup_changes opts c d T0 k s h hs]
    simp only [sleepsOf_append, sleepsOf_cycleStart, List.nil_append]
    have ht : sleepsOf (Event.lastSave ::
        ((finishBackup opts c d).events ++ doneLog opts (finishBackup opts c d).out)) = [] := by
      have := sleepsOf_of_finish _ (tail_all opts c d)
      simpa [sleepsOf, Event.sleepDuration] using this
    rw [ht, List.append_nil, sleepsOf_backoff_exact _ hb _ hk5 hfit, backoff_sum]
  · intro h
    obtain ⟨s, hs⟩ := h.2.1
    rw [startBackup_never opts c d T0 s h hs]
    have ht : sleepsOf [Event.lastSave] = [] := rfl
    simp only [sleepsOf_append, sleepsOf_cycleStart, List.nil_append, ht, List.append_nil]
    rw [sleepsOf_backoff_exact _ hb 4 (le_refl 4) hfit, backoff_sum]
    refine ⟨by simp, by ring, trivial⟩

/-- Witness of C10: base wait 10; a change on attempt 3 after 30 seconds of
sleep, and an exhausted cycle after 4 sleeps of 150 seconds in all. -/
theorem poll_loop_total_wait_witness :
    0 ≤ sampleOpts.RetryWaitTimeInSeconds ∧
    sampleOpts.RetryWaitTimeInSeconds * 8 * Second < 2 ^ 63 ∧
    ChangesAt (sampleCycle 3) 100 3 ∧ NeverChanges stuckCycle 100 ∧
    (sleepsOf (startBackup sampleOpts (sampleCycle 3) emptyDisk).events).sum
      = sampleOpts.RetryWaitTimeInSeconds * (2 ^ (3 - 1) - 1) * Second ∧
    (sleepsOf (startBackup sampleOpts stuckCycle emptyDisk).events).length = 4 ∧
    (sleepsOf (startBackup sampleOpts stuckCycle emptyDisk).events).sum
      = 15 * sampleOpts.RetryWaitTimeInSeconds * Second :=
  ⟨by decide, by decide, sampleCycle_changesAt 3 (by decide) (by decide),
    stuckCycle_neverChanges,
    (poll_loop_total_wait sampleOpts (sampleCycle 3) emptyDisk 100 (by decide) (by decide)).1 3
      (sampleCycle_changesAt 3 (by decide) (by decide)),
    ((poll_loop_total_wait sampleOpts stuckCycle emptyDisk 100 (by decide) (by decide)).2.1
      stuckCycle_neverChanges).1,
    ((poll_loop_total_wait sampleOpts stuckCycle emptyDisk 100 (by decide) (by decide)).2.1
      stuckCycle_neverChanges).2.1⟩

end RedisBackupSidecar
